import Mathlib

/-! # hwprobe: does the running system support RVA23?

A shallow embedding of `hwprobe.go` and a verification of its specification.

The program reads the kernel release with `uname`, packs `major.minor` into a
32-bit version, issues the `riscv_hwprobe` system call, and walks a fixed table
of extension descriptors, stopping at the first required extension that the
kernel version is expected to report and whose bit is absent.

Conventions of the embedding:

* machine integers are natural numbers, reduced modulo `2 ^ w` where the source
  arithmetic can wrap;
* the two system calls are inputs: what `uname` and `riscv_hwprobe` returned;
  the release string a run holds is the whole 65-byte field (`releaseField`), and
  theorems about every release string cover it;
* writes to standard output and standard error, the `riscv_hwprobe` call and the
  exit code are recorded in a `Run`;
* a Go string is a byte sequence; it is embedded as a `String`, whose characters
  stand for the bytes. The only bytes the program distinguishes are `.` and the
  ASCII digits, and no byte of a multi-byte UTF-8 sequence is one of them.
-/

namespace Hwprobe

/-! ## Library functions used by the program -/

namespace strings

/-- Fields of `s` separated by the one-byte separator `sep`, as `strings.Split(s, sep)`
returns them: the text before the first separator, followed by the fields of what
comes after it; a text without separator is its own single field. -/
def splitChars (sep : Char) : List Char → List (List Char)
  | [] => [[]]
  | c :: cs =>
    if c = sep then [] :: splitChars sep cs
    else
      match splitChars sep cs with
      | [] => [[c]]
      | f :: fs => (c :: f) :: fs

/-- Go `strings.Split(s, sep)` for a separator of one byte. -/
def Split (s : String) (sep : Char) : List String :=
  (splitChars sep s.toList).map String.mk

end strings

namespace strconv

/-- The two errors of `strconv.ParseUint`: `invalid` is `ErrSyntax`, `range` is `ErrRange`. -/
inductive NumError where
  | invalid
  | range
  deriving DecidableEq, Repr

/-- Go `maxUint64`. -/
def maxUint64 : Nat := 2 ^ 64 - 1

/-- Go `lower(c)`: `c | ('x' - 'X')`. -/
def lower (c : Nat) : Nat := c ||| (120 - 88)

/-- The digit value `ParseUint` gives to byte `c`: `c - '0'` for `'0'..'9'`,
`lower(c) - 'a' + 10` for a letter, and none for any other byte (the `default`
branch, a syntax error; `_` is only accepted when the base argument is 0). -/
def digitVal (c : Nat) : Option Nat :=
  if 48 ≤ c ∧ c ≤ 57 then some (c - 48)
  else if 97 ≤ lower c ∧ lower c ≤ 122 then some (lower c - 97 + 10)
  else none

/-- The loop of `ParseUint` over the bytes of the argument, with accumulator `n`. -/
def parseLoop (base cutoff maxVal : Nat) : List Char → Nat → Except NumError Nat
  | [], n => .ok n
  | c :: cs, n =>
    match digitVal c.toNat with
    | none => .error .invalid
    | some d =>
      if d ≥ base then .error .invalid
      else if n ≥ cutoff then .error .range
      else
        let n10 := (n * base) % 2 ^ 64
        let n1 := (n10 + d) % 2 ^ 64
        if n1 < n10 ∨ n1 > maxVal then .error .range
        else parseLoop base cutoff maxVal cs n1

/-- Go `strconv.ParseUint(s, base, bitSize)` for `2 ≤ base ≤ 36` and
`1 ≤ bitSize ≤ 64` (the program calls it with base 10 and bit size 32). -/
def ParseUint (s : String) (base bitSize : Nat) : Except NumError Nat :=
  if s = "" then .error .invalid
  else parseLoop base (maxUint64 / base + 1) (2 ^ bitSize - 1) s.toList 0

end strconv

/-! ## Constants and types of the program -/

def SYS_riscv_hwprobe : Nat := 258
def RISCV_HWPROBE_KEY_BASE_BEHAVIOR : Int := 3
def RISCV_HWPROBE_BASE_BEHAVIOR_IMA : Nat := 1
def RISCV_HWPROBE_KEY_IMA_EXT_0 : Int := 4

def RISCV_HWPROBE_IMA_FD : Nat := 1 <<< 0
def RISCV_HWPROBE_IMA_C : Nat := 1 <<< 1
def RISCV_HWPROBE_IMA_V : Nat := 1 <<< 2
def RISCV_HWPROBE_EXT_ZBA : Nat := 1 <<< 3
def RISCV_HWPROBE_EXT_ZBB : Nat := 1 <<< 4
def RISCV_HWPROBE_EXT_ZBS : Nat := 1 <<< 5
def RISCV_HWPROBE_EXT_ZICBOZ : Nat := 1 <<< 6
def RISCV_HWPROBE_EXT_ZBC : Nat := 1 <<< 7
def RISCV_HWPROBE_EXT_ZBKB : Nat := 1 <<< 8
def RISCV_HWPROBE_EXT_ZBKC : Nat := 1 <<< 9
def RISCV_HWPROBE_EXT_ZBKX : Nat := 1 <<< 10
def RISCV_HWPROBE_EXT_ZKND : Nat := 1 <<< 11
def RISCV_HWPROBE_EXT_ZKNE : Nat := 1 <<< 12
def RISCV_HWPROBE_EXT_ZKNH : Nat := 1 <<< 13
def RISCV_HWPROBE_EXT_ZKSED : Nat := 1 <<< 14
def RISCV_HWPROBE_EXT_ZKSH : Nat := 1 <<< 15
def RISCV_HWPROBE_EXT_ZKT : Nat := 1 <<< 16
def RISCV_HWPROBE_EXT_ZVBB : Nat := 1 <<< 17
def RISCV_HWPROBE_EXT_ZVBC : Nat := 1 <<< 18
def RISCV_HWPROBE_EXT_ZVKB : Nat := 1 <<< 19
def RISCV_HWPROBE_EXT_ZVKG : Nat := 1 <<< 20
def RISCV_HWPROBE_EXT_ZVKNED : Nat := 1 <<< 21
def RISCV_HWPROBE_EXT_ZVKNHA : Nat := 1 <<< 22
def RISCV_HWPROBE_EXT_ZVKNHB : Nat := 1 <<< 23
def RISCV_HWPROBE_EXT_ZVKSED : Nat := 1 <<< 24
def RISCV_HWPROBE_EXT_ZVKSH : Nat := 1 <<< 25
def RISCV_HWPROBE_EXT_ZVKT : Nat := 1 <<< 26
def RISCV_HWPROBE_EXT_ZFH : Nat := 1 <<< 27
def RISCV_HWPROBE_EXT_ZFHMIN : Nat := 1 <<< 28
def RISCV_HWPROBE_EXT_ZIHINTNTL : Nat := 1 <<< 29
def RISCV_HWPROBE_EXT_ZVFH : Nat := 1 <<< 30
def RISCV_HWPROBE_EXT_ZVFHMIN : Nat := 1 <<< 31
def RISCV_HWPROBE_EXT_ZFA : Nat := 1 <<< 32
def RISCV_HWPROBE_EXT_ZTSO : Nat := 1 <<< 33
def RISCV_HWPROBE_EXT_ZACAS : Nat := 1 <<< 34
def RISCV_HWPROBE_EXT_ZICOND : Nat := 1 <<< 35
def RISCV_HWPROBE_EXT_ZIHINTPAUSE : Nat := 1 <<< 36
def RISCV_HWPROBE_EXT_ZVE32X : Nat := 1 <<< 37
def RISCV_HWPROBE_EXT_ZVE32F : Nat := 1 <<< 38
def RISCV_HWPROBE_EXT_ZVE64X : Nat := 1 <<< 39
def RISCV_HWPROBE_EXT_ZVE64F : Nat := 1 <<< 40
def RISCV_HWPROBE_EXT_ZVE64D : Nat := 1 <<< 41
def RISCV_HWPROBE_EXT_ZIMOP : Nat := 1 <<< 42
def RISCV_HWPROBE_EXT_ZCA : Nat := 1 <<< 43
def RISCV_HWPROBE_EXT_ZCB : Nat := 1 <<< 44
def RISCV_HWPROBE_EXT_ZCD : Nat := 1 <<< 45
def RISCV_HWPROBE_EXT_ZCF : Nat := 1 <<< 46
def RISCV_HWPROBE_EXT_ZCMOP : Nat := 1 <<< 47
def RISCV_HWPROBE_EXT_ZAWRS : Nat := 1 <<< 48
def RISCV_HWPROBE_EXT_SUPM : Nat := 1 <<< 49
def RISCV_HWPROBE_EXT_ZICNTR : Nat := 1 <<< 50
def RISCV_HWPROBE_EXT_ZIHPM : Nat := 1 <<< 51
def RISCV_HWPROBE_EXT_ZFBFMIN : Nat := 1 <<< 52
def RISCV_HWPROBE_EXT_ZVFBFMIN : Nat := 1 <<< 53
def RISCV_HWPROBE_EXT_ZVFBFWMA : Nat := 1 <<< 54
def RISCV_HWPROBE_EXT_ZICBOM : Nat := 1 <<< 55
def RISCV_HWPROBE_EXT_ZAAMO : Nat := 1 <<< 56
def RISCV_HWPROBE_EXT_ZALRSC : Nat := 1 <<< 57
def RISCV_HWPROBE_EXT_ZABHA : Nat := 1 <<< 58
def RISCV_HWPROBE_EXT_ZALASR : Nat := 1 <<< 59
def RISCV_HWPROBE_EXT_ZICBOP : Nat := 1 <<< 60
def RISCV_HWPROBE_EXT_ZILSD : Nat := 1 <<< 61
def RISCV_HWPROBE_EXT_ZCLSD : Nat := 1 <<< 62

/-- The `riscv_hwprobe` structure: a key and the value the kernel fills in. -/
structure riscvHwprobe where
  Key : Int
  Value : Nat
  deriving DecidableEq, Repr

/-- An extension description: its bit in the extension word, its label, whether
it is required, and the kernel version from which the kernel reports it. -/
structure extDesc where
  Key : Nat
  Text : String
  Required : Bool
  Since : Nat
  deriving DecidableEq, Repr

/-! ## The extension table -/

/-- The `extensions` table of `main`, in declaration order. -/
def extensions : List extDesc :=
  [
    ⟨RISCV_HWPROBE_IMA_FD, "F and D", true, 0⟩,
    ⟨RISCV_HWPROBE_IMA_C, "C", true, 0⟩,
    ⟨RISCV_HWPROBE_IMA_V, "V", true, 0⟩,
    ⟨RISCV_HWPROBE_EXT_ZBA, "Zba", true, 0⟩,
    ⟨RISCV_HWPROBE_EXT_ZBB, "Zbb", true, 0⟩,
    ⟨RISCV_HWPROBE_EXT_ZBS, "Zbs", true, 0⟩,
    ⟨RISCV_HWPROBE_EXT_ZICBOZ, "Zicboz", true, 0⟩,
    ⟨RISCV_HWPROBE_EXT_ZBC, "Zbc", false, 0⟩,
    ⟨RISCV_HWPROBE_EXT_ZBKB, "Zbkb", false, 0⟩,
    ⟨RISCV_HWPROBE_EXT_ZBKC, "Zbkc", false, 0⟩,
    ⟨RISCV_HWPROBE_EXT_ZBKX, "Zbkx", false, 0⟩,
    ⟨RISCV_HWPROBE_EXT_ZKND, "Zknd", false, 0⟩,
    ⟨RISCV_HWPROBE_EXT_ZKNE, "Zkne", false, 0⟩,
    ⟨RISCV_HWPROBE_EXT_ZKNH, "Zknh", false, 0⟩,
    ⟨RISCV_HWPROBE_EXT_ZKSED, "Zksed", false, 0⟩,
    ⟨RISCV_HWPROBE_EXT_ZKSH, "Zksh", false, 0⟩,
    ⟨RISCV_HWPROBE_EXT_ZKT, "Zkt", true, 0⟩,
    ⟨RISCV_HWPROBE_EXT_ZVBB, "Zvbb", true, 0⟩,
    ⟨RISCV_HWPROBE_EXT_ZVBC, "Zvbc", false, 0⟩,
    ⟨RISCV_HWPROBE_EXT_ZVKB, "Zvkb", true, 0⟩,
    ⟨RISCV_HWPROBE_EXT_ZVKG, "Zvkg", false, 0⟩,
    ⟨RISCV_HWPROBE_EXT_ZVKNED, "Zvkned", false, 0⟩,
    ⟨RISCV_HWPROBE_EXT_ZVKNHA, "Zvknha", false, 0⟩,
    ⟨RISCV_HWPROBE_EXT_ZVKNHB, "Zvknhb", false, 0⟩,
    ⟨RISCV_HWPROBE_EXT_ZVKSED, "Zvksed", false, 0⟩,
    ⟨RISCV_HWPROBE_EXT_ZVKSH, "Zvksh", false, 0⟩,
    ⟨RISCV_HWPROBE_EXT_ZVKT, "Zvkt", true, 0⟩,
    ⟨RISCV_HWPROBE_EXT_ZFH, "Zfh", false, 0⟩,
    ⟨RISCV_HWPROBE_EXT_ZFHMIN, "Zfhmin", true, 0⟩,
    ⟨RISCV_HWPROBE_EXT_ZIHINTNTL, "Zihintntl", true, 0⟩,
    ⟨RISCV_HWPROBE_EXT_ZVFH, "Zvfh", false, 0⟩,
    ⟨RISCV_HWPROBE_EXT_ZVFHMIN, "Zvfhmin", true, 0⟩,
    ⟨RISCV_HWPROBE_EXT_ZFA, "Zfa", true, 0⟩,
    ⟨RISCV_HWPROBE_EXT_ZTSO, "Ztso", false, 0⟩,
    ⟨RISCV_HWPROBE_EXT_ZACAS, "Zacas", false, 0⟩,
    ⟨RISCV_HWPROBE_EXT_ZICNTR, "Zicntr", true, 0x0006000f⟩,
    ⟨RISCV_HWPROBE_EXT_ZICOND, "Zicond", true, 0⟩,
    ⟨RISCV_HWPROBE_EXT_ZIHINTPAUSE, "Zihintpause", true, 0⟩,
    ⟨RISCV_HWPROBE_EXT_ZIHPM, "Zihpm", true, 0x0006000f⟩,
    ⟨RISCV_HWPROBE_EXT_ZVE32X, "Zve32x", true, 0⟩,
    ⟨RISCV_HWPROBE_EXT_ZVE32F, "Zve32f", true, 0⟩,
    ⟨RISCV_HWPROBE_EXT_ZVE64X, "Zve64x", true, 0⟩,
    ⟨RISCV_HWPROBE_EXT_ZVE64F, "Zve64f", true, 0⟩,
    ⟨RISCV_HWPROBE_EXT_ZVE64D, "Zfe64d", true, 0⟩,
    ⟨RISCV_HWPROBE_EXT_ZIMOP, "Zimop", true, 0⟩,
    ⟨RISCV_HWPROBE_EXT_ZCA, "Zca", true, 0⟩,
    ⟨RISCV_HWPROBE_EXT_ZCB, "Zcb", true, 0⟩,
    ⟨RISCV_HWPROBE_EXT_ZCD, "Zcd", true, 0⟩,
    ⟨RISCV_HWPROBE_EXT_ZCF, "Zcf", false, 0⟩,
    ⟨RISCV_HWPROBE_EXT_ZCMOP, "Zcmop", true, 0⟩,
    ⟨RISCV_HWPROBE_EXT_ZAWRS, "Zawrs", true, 0⟩,
    ⟨RISCV_HWPROBE_EXT_ZAAMO, "Zaamo", true, 0x0006000f⟩,
    ⟨RISCV_HWPROBE_EXT_ZALRSC, "Zalrsc", true, 0x0006000f⟩,
    ⟨RISCV_HWPROBE_EXT_SUPM, "Supm", true, 0x0006000d⟩,
    ⟨RISCV_HWPROBE_EXT_ZFBFMIN, "Zfbfmin", false, 0⟩,
    ⟨RISCV_HWPROBE_EXT_ZVFBFMIN, "Zvfbfmin", false, 0⟩,
    ⟨RISCV_HWPROBE_EXT_ZVFBFWMA, "Zvfbfwma", false, 0⟩,
    ⟨RISCV_HWPROBE_EXT_ZICBOM, "Zicbom", true, 0x0006000f⟩,
    ⟨RISCV_HWPROBE_EXT_ZABHA, "Zabha", false, 0⟩,
    ⟨RISCV_HWPROBE_EXT_ZALASR, "Zalasr", false, 0⟩,
    ⟨RISCV_HWPROBE_EXT_ZICBOP, "Zicbop", true, 0x00060013⟩,
    ⟨RISCV_HWPROBE_EXT_ZILSD, "Zilsd", false, 0⟩,
    ⟨RISCV_HWPROBE_EXT_ZCLSD, "Zclsd", false, 0⟩
  ]

/-! ## System calls and observable behaviour -/

/-- What the `uname` system call returned: the error number (0 on success), how
`%v` prints it, and the release field of the `Utsname` record as a string. -/
structure UnameResult where
  errno : Nat
  errnoText : String
  Release : String
  deriving DecidableEq, Repr

/-- What the `riscv_hwprobe` system call returned: the raw return value (a
64-bit word), how `%v` prints the error number, and the two values the kernel
stored in `probeItems[0]` and `probeItems[1]`. -/
structure HwprobeResult where
  ret : Nat
  errnoText : String
  Value0 : Nat
  Value1 : Nat
  deriving DecidableEq, Repr

/-- Observable steps of a run, in order. -/
inductive Event where
  | stdout (text : String)
  | stderr (text : String)
  | hwprobe (items : List riscvHwprobe) (count : Nat)
  deriving DecidableEq, Repr

/-- A finished run: the observable steps and the code passed to `os.Exit`. -/
structure Run where
  trace : List Event
  exitCode : Nat
  deriving DecidableEq, Repr

/-- Go conversion `int(x)` of a 64-bit unsigned word: its two's complement value. -/
def toInt (x : Nat) : Int :=
  if x % 2 ^ 64 < 2 ^ 63 then (x % 2 ^ 64 : Nat) else ((x % 2 ^ 64 : Nat) : Int) - 2 ^ 64

/-- Go conversion `uint32(x)`. -/
def toUint32 (x : Nat) : Nat := x % 2 ^ 32

/-! ## The program -/

/-- The part of `getKernelVersion` after the release string is printed: split on
the dot, parse the first two fields, and pack them into 32 bits. -/
def versionOfRelease (release : String) : Nat :=
  let parts := strings.Split release '.'
  if parts.length < 2 then 0
  else
    match strconv.ParseUint (parts.getD 0 "") 10 32 with
    | .error _ => 0
    | .ok major =>
      match strconv.ParseUint (parts.getD 1 "") 10 32 with
      | .error _ => 0
      | .ok minor =>
        ((toUint32 major <<< 16) % 2 ^ 32) ||| toUint32 minor

/-- The function `getKernelVersion`: what it writes and the version it returns. -/
def getKernelVersion (u : UnameResult) : List Event × Nat :=
  if u.errno ≠ 0 then
    ([.stderr ("sys_riscv_uname failed: " ++ u.errnoText ++ "\n")], 0)
  else
    ([.stdout ("Kernel release " ++ u.Release ++ "\n")], versionOfRelease u.Release)

/-- The extension check of `main` over a descriptor list: the `for` loop with its
early exit, followed by the two statements after the loop. -/
def checkExtensions : List extDesc → Nat → Nat → Run
  | [], _, _ => ⟨[.stdout "All required extensions supported\n"], 0⟩
  | ext :: rest, value, version =>
    if value &&& ext.Key = 0 ∧ ext.Required = true ∧ ext.Since ≤ version then
      ⟨[.stdout (ext.Text ++ " NOT supported\n")], 1⟩
    else checkExtensions rest value version

/-- The function `main` with the descriptor table as a parameter. -/
def mainWith (table : List extDesc) (u : UnameResult) (p : HwprobeResult) : Run :=
  let (out, version) := getKernelVersion u
  if version = 0 then
    ⟨out ++ [.stderr "Can't get kernel version number"], 1⟩
  else
    let probeItems : List riscvHwprobe :=
      [⟨RISCV_HWPROBE_KEY_BASE_BEHAVIOR, 0⟩, ⟨RISCV_HWPROBE_KEY_IMA_EXT_0, 0⟩]
    let out := out ++ [.hwprobe probeItems 2]
    if toInt p.ret < 0 then
      ⟨out ++ [.stderr ("sys_riscv_hwprobe failed: " ++ p.errnoText ++ "\n")], 1⟩
    else if p.Value0 &&& RISCV_HWPROBE_BASE_BEHAVIOR_IMA = 0 then
      ⟨out ++ [.stdout "RISC-V base is NOT supported.\n"], 1⟩
    else
      let r := checkExtensions table p.Value1 version
      ⟨out ++ r.trace, r.exitCode⟩

/-- The function `main`. -/
def main (u : UnameResult) (p : HwprobeResult) : Run :=
  mainWith extensions u p

/-- A successful `uname` call that reports `release`. -/
def unameOk (release : String) : UnameResult := ⟨0, "", release⟩

/-! ## Vocabulary of the specification -/

/-- The run of the check loop that reports `text` as missing. -/
def notSupported (text : String) : Run :=
  ⟨[.stdout (text ++ " NOT supported\n")], 1⟩

/-- The run of the check loop that reports success. -/
def allSupported : Run :=
  ⟨[.stdout "All required extensions supported\n"], 0⟩

/-- The test of the check loop on one descriptor, as `main` writes it. -/
def isMissing (value version : Nat) (ext : extDesc) : Bool :=
  decide (value &&& ext.Key = 0) && ext.Required && decide (ext.Since ≤ version)

/-- The specification's `effective_required`:
`d.required AND (d.minKernelVersion == 0 OR version >= d.minKernelVersion)`. -/
def specEffectiveRequired (version : Nat) (d : extDesc) : Bool :=
  d.Required && (decide (d.Since = 0) || decide (version ≥ d.Since))

/-- The specification's stopping condition on a descriptor: `effective_required`
is true and `(extBitmask AND d.bit) == 0`. -/
def specMissing (extBitmask version : Nat) (d : extDesc) : Bool :=
  specEffectiveRequired version d && decide (extBitmask &&& d.Key = 0)

/-- A non-empty string of decimal digits. -/
def isDecimal (s : String) : Prop :=
  s ≠ "" ∧ ∀ c ∈ s.toList, c.isDigit = true

instance (s : String) : Decidable (isDecimal s) := by
  unfold isDecimal; infer_instance

/-- The release string `r` reads `M.m...`: it has at least two dot-separated
fields, the first parses to `M` and the second to `m`. -/
def isRelease (r : String) (M m : Nat) : Prop :=
  ∃ f0 f1 rest, strings.Split r '.' = f0 :: f1 :: rest ∧
    strconv.ParseUint f0 10 32 = .ok M ∧ strconv.ParseUint f1 10 32 = .ok m

/-- Lexicographic order on `(major, minor)` pairs. -/
def lexLt (M1 m1 M2 m2 : Nat) : Prop :=
  M1 < M2 ∨ (M1 = M2 ∧ m1 < m2)

instance (M1 m1 M2 m2 : Nat) : Decidable (lexLt M1 m1 M2 m2) := by
  unfold lexLt; infer_instance

/-- The release string as the program holds it: `string(uname.Release[:])` is the
whole 65-byte `Release` field of the `Utsname` record, that is the release text
the kernel stored there followed by NUL bytes up to 65 bytes. -/
def releaseField (text : String) : String :=
  text ++ String.mk (List.replicate (65 - text.length) (Char.ofNat 0))

/-- The step of a run in which `main` issues the `riscv_hwprobe` call with its
two requests. -/
def hwprobeCall : Event :=
  .hwprobe [⟨RISCV_HWPROBE_KEY_BASE_BEHAVIOR, 0⟩, ⟨RISCV_HWPROBE_KEY_IMA_EXT_0, 0⟩] 2

/-- The number that a string of decimal digits denotes, read from the left. -/
def decimalValue (s : String) : Nat :=
  s.toList.foldl (fun n c => n * 10 + (c.toNat - 48)) 0

/-- The string `s` is a decimal numeral of `n`: a non-empty string of decimal
digits (leading zeros allowed) that denotes `n`. -/
def isNumeral (s : String) (n : Nat) : Prop :=
  isDecimal s ∧ decimalValue s = n

instance (s : String) (n : Nat) : Decidable (isNumeral s n) := by
  unfold isNumeral; infer_instance

/-- The bitwise OR of the keys of the entries of `table` that are required and
whose `Since` is at most `version`. -/
def reqMask (table : List extDesc) (version : Nat) : Nat :=
  ((table.filter (fun d => d.Required && decide (d.Since ≤ version))).map extDesc.Key).foldr
    (fun k acc => k ||| acc) 0

/-! ## Lemmas on the library functions -/

theorem isDigit_iff (c : Char) : c.isDigit = true ↔ 48 ≤ c.toNat ∧ c.toNat ≤ 57 := by
  simp only [Char.isDigit, Bool.and_eq_true, decide_eq_true_eq, Char.toNat]
  exact Iff.rfl

namespace strconv

theorem digitVal_lt_base {x d : Nat} (h : digitVal x = some d) (hd : d < 10) :
    48 ≤ x ∧ x ≤ 57 := by
  unfold digitVal at h
  split_ifs at h with h1 h2
  · exact h1
  · simp only [Option.some.injEq] at h
    omega

theorem parseLoop_error (cutoff maxVal : Nat) (cs : List Char) (n : Nat)
    (h : ∃ c ∈ cs, c.isDigit = false) :
    ∃ e, parseLoop 10 cutoff maxVal cs n = .error e := by
  induction cs generalizing n with
  | nil => simp at h
  | cons c cs ih =>
    unfold parseLoop
    cases hd : digitVal c.toNat with
    | none => exact ⟨_, rfl⟩
    | some d =>
      simp only
      split_ifs with h1 h2 h3
      · exact ⟨_, rfl⟩
      · exact ⟨_, rfl⟩
      · exact ⟨_, rfl⟩
      · apply ih
        obtain ⟨c', hc', hnd⟩ := h
        rcases List.mem_cons.mp hc' with rfl | hin
        · have := (isDigit_iff c').mpr (digitVal_lt_base hd (by omega))
          simp [this] at hnd
        · exact ⟨c', hin, hnd⟩

/-- A field that is not a non-empty string of decimal digits does not parse. -/
theorem ParseUint_error_of_not_decimal (s : String) (bitSize : Nat) (h : ¬ isDecimal s) :
    ∃ e, ParseUint s 10 bitSize = .error e := by
  unfold ParseUint
  split_ifs with h0
  · exact ⟨_, rfl⟩
  · apply parseLoop_error
    unfold isDecimal at h
    push_neg at h
    obtain ⟨c, hc, hnd⟩ := h h0
    exact ⟨c, hc, by simpa using hnd⟩

end strconv

/-! ## Lemmas on the program -/

theorem getKernelVersion_unameOk (r : String) :
    getKernelVersion (unameOk r) =
      ([.stdout ("Kernel release " ++ r ++ "\n")], versionOfRelease r) := by
  simp [getKernelVersion, unameOk]

/-- With two parsed fields the version is the packed pair. -/
theorem versionOfRelease_of_isRelease {r : String} {M m : Nat} (h : isRelease r M m) :
    versionOfRelease r = ((toUint32 M <<< 16) % 2 ^ 32) ||| toUint32 m := by
  obtain ⟨f0, f1, rest, hs, h0, h1⟩ := h
  simp [versionOfRelease, hs, h0, h1]

theorem pack16 (M m : Nat) (hM : M < 2 ^ 16) (hm : m < 2 ^ 16) :
    ((toUint32 M <<< 16) % 2 ^ 32) ||| toUint32 m = M * 65536 + m := by
  have h1 : toUint32 M = M := Nat.mod_eq_of_lt (by omega)
  have h2 : toUint32 m = m := Nat.mod_eq_of_lt (by omega)
  rw [h1, h2, Nat.shiftLeft_eq, Nat.mod_eq_of_lt (by omega)]
  have := Nat.mul_add_lt_is_or hm M
  rw [Nat.mul_comm] at this
  omega

/-- The check loop stops at the first descriptor that passes its test. -/
theorem checkExtensions_eq_find (table : List extDesc) (b v : Nat) :
    checkExtensions table b v =
      match table.find? (isMissing b v) with
      | some d => notSupported d.Text
      | none => allSupported := by
  induction table with
  | nil => rfl
  | cons d ds ih =>
    by_cases h : isMissing b v d = true
    · have h' : b &&& d.Key = 0 ∧ d.Required = true ∧ d.Since ≤ v := by
        simpa [isMissing, and_assoc] using h
      simp [checkExtensions, List.find?, h, h', notSupported]
    · have h' : ¬ (b &&& d.Key = 0 ∧ d.Required = true ∧ d.Since ≤ v) := by
        simpa [isMissing, and_assoc] using h
      simp only [Bool.not_eq_true] at h
      simp only [checkExtensions, List.find?, h, h', if_false, ih]

/-- The specification's stopping condition is the test the code makes. -/
theorem specMissing_eq (b v : Nat) : specMissing b v = isMissing b v := by
  funext d
  simp only [specMissing, specEffectiveRequired, isMissing]
  rcases Nat.eq_zero_or_pos d.Since with h0 | h0
  · cases d.Required <;> simp [h0, Bool.and_comm]
  · have : d.Since ≠ 0 := by omega
    cases d.Required <;> simp [this, Bool.and_comm]

theorem mainWith_version_zero (table : List extDesc) (u : UnameResult) (p : HwprobeResult)
    (hv : (getKernelVersion u).2 = 0) :
    mainWith table u p =
      ⟨(getKernelVersion u).1 ++ [.stderr "Can't get kernel version number"], 1⟩ := by
  simp [mainWith, hv]

theorem mainWith_probe_failed (table : List extDesc) (u : UnameResult) (p : HwprobeResult)
    (hv : (getKernelVersion u).2 ≠ 0) (hp : toInt p.ret < 0) :
    mainWith table u p =
      ⟨(getKernelVersion u).1 ++ [hwprobeCall,
        .stderr ("sys_riscv_hwprobe failed: " ++ p.errnoText ++ "\n")], 1⟩ := by
  simp [mainWith, hv, hp, hwprobeCall]

theorem mainWith_no_base (table : List extDesc) (u : UnameResult) (p : HwprobeResult)
    (hv : (getKernelVersion u).2 ≠ 0) (hp : 0 ≤ toInt p.ret)
    (hb : p.Value0 &&& RISCV_HWPROBE_BASE_BEHAVIOR_IMA = 0) :
    mainWith table u p =
      ⟨(getKernelVersion u).1 ++ [hwprobeCall,
        .stdout "RISC-V base is NOT supported.\n"], 1⟩ := by
  have hp' : ¬ toInt p.ret < 0 := by omega
  simp [mainWith, hv, hp', hb, hwprobeCall]

theorem mainWith_check (table : List extDesc) (u : UnameResult) (p : HwprobeResult)
    (hv : (getKernelVersion u).2 ≠ 0) (hp : 0 ≤ toInt p.ret)
    (hb : p.Value0 &&& RISCV_HWPROBE_BASE_BEHAVIOR_IMA ≠ 0) :
    mainWith table u p =
      ⟨(getKernelVersion u).1 ++ hwprobeCall ::
          (checkExtensions table p.Value1 (getKernelVersion u).2).trace,
        (checkExtensions table p.Value1 (getKernelVersion u).2).exitCode⟩ := by
  have hp' : ¬ toInt p.ret < 0 := by omega
  simp [mainWith, hv, hp', hb, hwprobeCall]

theorem base_bit (x : Nat) : x &&& RISCV_HWPROBE_BASE_BEHAVIOR_IMA = 0 ↔ x.testBit 0 = false := by
  simp [RISCV_HWPROBE_BASE_BEHAVIOR_IMA, Nat.and_one_is_mod, Nat.testBit_zero]

theorem checkExtensions_exitCode_zero (table : List extDesc) (b v : Nat) :
    (checkExtensions table b v).exitCode = 0 ↔ ∀ d ∈ table, isMissing b v d = false := by
  rw [checkExtensions_eq_find]
  cases h : table.find? (isMissing b v) with
  | none =>
    simp only [allSupported, true_iff]
    simpa using h
  | some d =>
    have := List.find?_some h
    have hm := List.mem_of_find?_eq_some h
    simp only [notSupported, one_ne_zero, false_iff]
    intro hall
    rw [hall d hm] at this
    exact Bool.noConfusion this

theorem checkExtensions_exitCode_one (table : List extDesc) (b v : Nat) :
    (checkExtensions table b v).exitCode = 1 ↔ ∃ d ∈ table, isMissing b v d = true := by
  rw [checkExtensions_eq_find]
  cases h : table.find? (isMissing b v) with
  | none =>
    simp only [allSupported, zero_ne_one, false_iff]
    simpa using h
  | some d =>
    simp only [notSupported, true_iff]
    exact ⟨d, List.mem_of_find?_eq_some h, List.find?_some h⟩

theorem isMissing_iff (b v : Nat) (d : extDesc) :
    isMissing b v d = true ↔ d.Required = true ∧ d.Since ≤ v ∧ b &&& d.Key = 0 := by
  simp only [isMissing, Bool.and_eq_true, decide_eq_true_eq]
  tauto

/-- The release line starts with the letter K. -/
theorem kernelLine_head (R : String) :
    ("Kernel release " ++ R ++ "\n").toList.head? = some 'K' := by
  show (("Kernel release " ++ R) ++ "\n").data.head? = _
  rw [String.data_append, String.data_append]
  rfl

/-- No report line of the table starts with K or is the line about the base. -/
theorem label_head : ∀ d ∈ extensions,
    (d.Text ++ " NOT supported\n").toList.head? ≠ some 'K' ∧
      d.Text ++ " NOT supported\n" ≠ "RISC-V base is NOT supported.\n" := by
  decide

/-- A successful version lookup wrote exactly the release line. -/
theorem getKernelVersion_trace_of_ne_zero (u : UnameResult) (hv : (getKernelVersion u).2 ≠ 0) :
    (getKernelVersion u).1 = [.stdout ("Kernel release " ++ u.Release ++ "\n")] := by
  unfold getKernelVersion at hv ⊢
  split_ifs at hv ⊢ with h
  · exact absurd rfl hv
  · rfl

set_option maxRecDepth 100000 in
/-- The labels of the table are pairwise distinct. -/
theorem extensions_text_nodup : (extensions.map extDesc.Text).Nodup := by
  decide

/-- The entries of the table are pairwise distinct. -/
theorem extensions_nodup : extensions.Nodup :=
  List.Nodup.of_map _ extensions_text_nodup

/-- No report line of the table is the success line. -/
theorem allSupported_ne_label : ∀ d ∈ extensions,
    d.Text ++ " NOT supported\n" ≠ "All required extensions supported\n" := by
  decide

/-- Appending the same text on the right is injective. -/
theorem string_append_right_cancel {a b s : String} (h : a ++ s = b ++ s) : a = b := by
  have h' := congrArg String.data h
  rw [String.data_append, String.data_append] at h'
  exact String.ext (List.append_cancel_right h')

/-- Two table entries with the same report line are the same entry. -/
theorem entry_eq_of_line_eq {d e : extDesc} (hd : d ∈ extensions) (he : e ∈ extensions)
    (h : e.Text ++ " NOT supported\n" = d.Text ++ " NOT supported\n") : e = d :=
  List.inj_on_of_nodup_map extensions_text_nodup he hd (string_append_right_cancel h)

/-- Whatever the check loop writes is one line: the success line, or the report
line of an entry of the table that passes the test of the loop. -/
theorem checkExtensions_cases (table : List extDesc) (b v : Nat) :
    checkExtensions table b v = allSupported ∨
      ∃ e ∈ table, isMissing b v e = true ∧ checkExtensions table b v = notSupported e.Text := by
  rw [checkExtensions_eq_find]
  cases h : table.find? (isMissing b v) with
  | none => exact Or.inl rfl
  | some e => exact Or.inr ⟨e, List.mem_of_find?_eq_some h, List.find?_some h, rfl⟩

/-- The loop reports an entry that passes its test when no entry before it does. -/
theorem checkExtensions_append_cons (pre post : List extDesc) (d : extDesc) (b v : Nat)
    (hpre : ∀ e ∈ pre, isMissing b v e = false) (hd : isMissing b v d = true) :
    checkExtensions (pre ++ d :: post) b v = notSupported d.Text := by
  rw [checkExtensions_eq_find, List.find?_append]
  have h1 : pre.find? (isMissing b v) = none := by
    rw [List.find?_eq_none]
    intro e he
    simp [hpre e he]
  simp [h1, List.find?, hd]

/-- Two releases with the same version give runs that differ at most in the release line. -/
theorem mainWith_tail (table : List extDesc) (r1 r2 : String) (p : HwprobeResult)
    (h : versionOfRelease r1 = versionOfRelease r2) :
    (mainWith table (unameOk r1) p).trace.tail = (mainWith table (unameOk r2) p).trace.tail ∧
      (mainWith table (unameOk r1) p).exitCode = (mainWith table (unameOk r2) p).exitCode := by
  simp only [mainWith, getKernelVersion_unameOk, h]
  split_ifs <;> simp

/-! ## Further lemmas on the library functions and the program -/

namespace strings

/-- A split has at least one field. -/
theorem splitChars_ne_nil (sep : Char) (cs : List Char) : splitChars sep cs ≠ [] := by
  cases cs with
  | nil => simp [splitChars]
  | cons c cs =>
    unfold splitChars
    split_ifs
    · simp
    · split <;> simp

/-- A field without separator, followed by a separator, is the first field. -/
theorem splitChars_field (sep : Char) (f cs : List Char) (hf : ∀ c ∈ f, c ≠ sep) :
    splitChars sep (f ++ sep :: cs) = f :: splitChars sep cs := by
  induction f with
  | nil => simp [splitChars]
  | cons c f ih =>
    have hc : c ≠ sep := hf c (by simp)
    have ih' := ih (fun x hx => hf x (by simp [hx]))
    simp only [List.cons_append]
    rw [splitChars, if_neg hc, ih']

/-- The first two fields of a string built from two fields without dot. -/
theorem Split_two_fields (f0 f1 rest : String)
    (h0 : ∀ c ∈ f0.toList, c ≠ '.') (h1 : ∀ c ∈ f1.toList, c ≠ '.') :
    Split (f0 ++ "." ++ f1 ++ "." ++ rest) '.' = f0 :: f1 :: Split rest '.' := by
  unfold Split
  have : (f0 ++ "." ++ f1 ++ "." ++ rest).toList =
      f0.toList ++ '.' :: (f1.toList ++ '.' :: rest.toList) := by
    simp [String.toList, String.data_append]
  rw [this, splitChars_field _ _ _ h0, splitChars_field _ _ _ h1]
  simp

end strings

namespace strconv

/-- The value of a decimal digit. -/
theorem digitVal_of_digit {x : Nat} (h : 48 ≤ x ∧ x ≤ 57) : digitVal x = some (x - 48) := by
  simp [digitVal, h]

/-- Reading further digits does not decrease the number read so far. -/
theorem foldl_step_le (cs : List Char) (n : Nat) :
    n ≤ cs.foldl (fun n c => n * 10 + (c.toNat - 48)) n := by
  induction cs generalizing n with
  | nil => simp
  | cons c cs ih =>
    simp only [List.foldl_cons]
    exact Nat.le_trans (by omega) (ih _)

/-- On decimal digits whose number fits in 32 bits the loop returns that number. -/
theorem parseLoop_ok (cs : List Char) (n : Nat) (hdig : ∀ c ∈ cs, c.isDigit = true)
    (hval : cs.foldl (fun n c => n * 10 + (c.toNat - 48)) n ≤ 2 ^ 32 - 1) :
    parseLoop 10 (maxUint64 / 10 + 1) (2 ^ 32 - 1) cs n =
      .ok (cs.foldl (fun n c => n * 10 + (c.toNat - 48)) n) := by
  induction cs generalizing n with
  | nil => rfl
  | cons c cs ih =>
    have hc := (isDigit_iff c).mp (hdig c (by simp))
    simp only [List.foldl_cons] at hval ⊢
    have h1 := foldl_step_le cs (n * 10 + (c.toNat - 48))
    have hn : n * 10 + (c.toNat - 48) ≤ 2 ^ 32 - 1 := Nat.le_trans h1 hval
    unfold parseLoop
    rw [digitVal_of_digit hc]
    simp only
    have hd : ¬ (c.toNat - 48 ≥ 10) := by omega
    have hcut : ¬ (n ≥ maxUint64 / 10 + 1) := by
      simp only [maxUint64]; omega
    have hm1 : n * 10 % 2 ^ 64 = n * 10 := Nat.mod_eq_of_lt (by omega)
    have hm2 : (n * 10 + (c.toNat - 48)) % 2 ^ 64 = n * 10 + (c.toNat - 48) :=
      Nat.mod_eq_of_lt (by omega)
    rw [if_neg hd, if_neg hcut, hm1, hm2]
    have hov : ¬ (n * 10 + (c.toNat - 48) < n * 10 ∨ n * 10 + (c.toNat - 48) > 2 ^ 32 - 1) := by
      omega
    rw [if_neg hov]
    exact ih _ (fun x hx => hdig x (by simp [hx])) hval

/-- A decimal numeral of a number below `2 ^ 32` parses to that number. -/
theorem ParseUint_of_isNumeral {s : String} {n : Nat} (h : isNumeral s n) (hn : n < 2 ^ 32) :
    ParseUint s 10 32 = .ok n := by
  obtain ⟨⟨hne, hdig⟩, hval⟩ := h
  unfold ParseUint
  rw [if_neg hne]
  have := parseLoop_ok s.toList 0 hdig (by unfold decimalValue at hval; omega)
  rw [this]
  unfold decimalValue at hval
  rw [hval]

/-- The loop never returns more than `maxVal`. -/
theorem parseLoop_le (base cutoff maxVal : Nat) (cs : List Char) (n v : Nat)
    (h : parseLoop base cutoff maxVal cs n = .ok v) (hn : n ≤ maxVal) : v ≤ maxVal := by
  induction cs generalizing n with
  | nil =>
    simp only [parseLoop, Except.ok.injEq] at h
    omega
  | cons c cs ih =>
    unfold parseLoop at h
    cases hd : digitVal c.toNat with
    | none => simp [hd] at h
    | some d =>
      simp only [hd] at h
      split_ifs at h with h1 h2 h3
      exact ih _ h (by omega)

/-- A successful parse with bit size 32 is below `2 ^ 32`. -/
theorem ParseUint_lt {s : String} {n : Nat} (h : ParseUint s 10 32 = .ok n) : n < 2 ^ 32 := by
  unfold ParseUint at h
  split_ifs at h
  have := parseLoop_le _ _ _ _ _ _ h (by omega)
  omega

end strconv

/-- A bitwise OR is zero only when both operands are. -/
theorem or_eq_zero {x y : Nat} (h : x ||| y = 0) : x = 0 ∧ y = 0 := by
  have hb : ∀ i, x.testBit i = false ∧ y.testBit i = false := by
    intro i
    have := congrArg (fun n => n.testBit i) h
    simpa using this
  exact ⟨Nat.eq_of_testBit_eq (fun i => by simp [(hb i).1]),
    Nat.eq_of_testBit_eq (fun i => by simp [(hb i).2])⟩

/-- Text after the second dot does not change the version. -/
theorem versionOfRelease_prefix (M m rest : String) (v : Nat)
    (hM : ∀ c ∈ M.toList, c ≠ '.') (hm : ∀ c ∈ m.toList, c ≠ '.')
    (hv : versionOfRelease (M ++ "." ++ m) = v) (hlen : (strings.Split (M ++ "." ++ m) '.') = [M, m]) :
    versionOfRelease (M ++ "." ++ m ++ "." ++ rest) = v := by
  have hs := strings.Split_two_fields M m rest hM hm
  have hne : ¬ ((strings.Split rest '.').length + 1 + 1 < 2) := by omega
  rw [← hv]
  simp [versionOfRelease, hs, hlen, hne]

/-- What `getKernelVersion` writes: one line, on standard error when `uname`
failed and the release line otherwise. -/
theorem getKernelVersion_trace (u : UnameResult) :
    (getKernelVersion u).1 = [.stderr ("sys_riscv_uname failed: " ++ u.errnoText ++ "\n")] ∨
      (getKernelVersion u).1 = [.stdout ("Kernel release " ++ u.Release ++ "\n")] := by
  unfold getKernelVersion
  split_ifs
  · exact Or.inl rfl
  · exact Or.inr rfl

/-- Masking `b` with `x` gives `x` exactly when every bit of `x` is set in `b`. -/
theorem and_eq_right_iff (b x : Nat) :
    b &&& x = x ↔ ∀ i, x.testBit i = true → b.testBit i = true := by
  constructor
  · intro h i hx
    have := congrArg (fun n => n.testBit i) h
    simpa [hx] using this
  · intro h
    apply Nat.eq_of_testBit_eq
    intro i
    rw [Nat.testBit_and]
    cases hx : x.testBit i with
    | false => simp
    | true => simp [h i hx]

/-- Masking with a single bit gives zero exactly when that bit is clear. -/
theorem and_two_pow_eq_zero (b j : Nat) : b &&& 2 ^ j = 0 ↔ b.testBit j = false := by
  constructor
  · intro h
    have := congrArg (fun n => n.testBit j) h
    simpa [Nat.testBit_two_pow_self] using this
  · intro h
    apply Nat.eq_of_testBit_eq
    intro i
    rw [Nat.testBit_and, Nat.testBit_two_pow, Nat.zero_testBit]
    by_cases hji : j = i
    · subst hji
      simp [h]
    · simp [hji]

set_option maxRecDepth 100000 in
/-- Every key of the table is a single bit. -/
theorem extensions_key_pow : ∀ d ∈ extensions, ∃ i, i < 63 ∧ d.Key = 2 ^ i := by
  decide

/-- Bits of the OR of a list of words. -/
theorem testBit_foldr_or (ks : List Nat) (i : Nat) :
    (ks.foldr (fun k acc => k ||| acc) 0).testBit i = true ↔ ∃ k ∈ ks, k.testBit i = true := by
  induction ks with
  | nil => simp
  | cons k ks ih =>
    simp only [List.foldr_cons, Nat.testBit_or, Bool.or_eq_true, ih, List.mem_cons,
      exists_eq_or_imp]

/-- Bits of the mask of binding requirements. -/
theorem testBit_reqMask (table : List extDesc) (v i : Nat) :
    (reqMask table v).testBit i = true ↔
      ∃ d ∈ table, d.Required = true ∧ d.Since ≤ v ∧ d.Key.testBit i = true := by
  unfold reqMask
  rw [testBit_foldr_or]
  constructor
  · rintro ⟨k, hk, hbit⟩
    obtain ⟨d, hd, rfl⟩ := List.mem_map.mp hk
    have hf := List.mem_filter.mp hd
    have hb : d.Required = true ∧ d.Since ≤ v := by simpa using hf.2
    exact ⟨d, hf.1, hb.1, hb.2, hbit⟩
  · rintro ⟨d, hd, hr, hs, hbit⟩
    exact ⟨d.Key, List.mem_map.mpr ⟨d, List.mem_filter.mpr ⟨hd, by simp [hr, hs]⟩, rfl⟩, hbit⟩

/-- The loop reports success exactly when its exit code is 0. -/
theorem checkExtensions_eq_allSupported (table : List extDesc) (b v : Nat) :
    checkExtensions table b v = allSupported ↔ (checkExtensions table b v).exitCode = 0 := by
  constructor
  · intro h
    rw [h]
    rfl
  · intro h
    rcases checkExtensions_cases table b v with h0 | ⟨e, _, _, h1⟩
    · exact h0
    · rw [h1] at h
      exact absurd h (by simp [notSupported])

/-- For a table of single-bit keys, the loop reports success exactly when the
bitmask contains the mask of binding requirements. -/
theorem pass_iff_mask (table : List extDesc) (hk : ∀ d ∈ table, ∃ i, d.Key = 2 ^ i)
    (b v : Nat) :
    checkExtensions table b v = allSupported ↔ b &&& reqMask table v = reqMask table v := by
  rw [checkExtensions_eq_allSupported, checkExtensions_exitCode_zero, and_eq_right_iff]
  constructor
  · intro h i hi
    obtain ⟨d, hd, hr, hs, hbit⟩ := (testBit_reqMask table v i).mp hi
    obtain ⟨j, hj⟩ := hk d hd
    have hji : j = i := by
      rw [hj, Nat.testBit_two_pow] at hbit
      simpa using hbit
    have hnm := h d hd
    by_contra hb
    have hb0 : b &&& d.Key = 0 := by
      rw [hj, and_two_pow_eq_zero, hji]
      simpa using hb
    have := (isMissing_iff b v d).mpr ⟨hr, hs, hb0⟩
    rw [hnm] at this
    exact Bool.noConfusion this
  · intro h d hd
    by_contra hm
    have hm' : isMissing b v d = true := by simpa using hm
    obtain ⟨hr, hs, hb0⟩ := (isMissing_iff b v d).mp hm'
    obtain ⟨j, hj⟩ := hk d hd
    rw [hj, and_two_pow_eq_zero] at hb0
    have hbit : (reqMask table v).testBit j = true :=
      (testBit_reqMask table v j).mpr ⟨d, hd, hr, hs, by rw [hj]; exact Nat.testBit_two_pow_self⟩
    rw [h j hbit] at hb0
    exact Bool.noConfusion hb0

/-- Two bitmask and version pairs on which the test of the loop agrees for every
entry give the same run. -/
theorem checkExtensions_congr (table : List extDesc) (b1 v1 b2 v2 : Nat)
    (h : ∀ d ∈ table, isMissing b1 v1 d = isMissing b2 v2 d) :
    checkExtensions table b1 v1 = checkExtensions table b2 v2 := by
  rw [checkExtensions_eq_find, checkExtensions_eq_find]
  have : table.find? (isMissing b1 v1) = table.find? (isMissing b2 v2) := by
    induction table with
    | nil => rfl
    | cons d ds ih =>
      simp only [List.find?, h d (by simp)]
      rw [ih (fun e he => h e (by simp [he]))]
  rw [this]

/-- No entry of the table is gated later than 6.19. -/
theorem extensions_since_le : ∀ d ∈ extensions, d.Since ≤ 0x00060013 := by
  decide

/-- The gated entries of the table: each is required and carries the threshold
that belongs to its label. -/
theorem extensions_gated : ∀ d ∈ extensions, d.Since ≠ 0 →
    d.Required = true ∧
      (d.Text = "Supm" ↔ d.Since = 0x0006000d) ∧
      (d.Text = "Zicbop" ↔ d.Since = 0x00060013) ∧
      (d.Text ∈ ["Zicntr", "Zihpm", "Zaamo", "Zalrsc", "Zicbom"] ↔ d.Since = 0x0006000f) ∧
      (d.Since = 0x0006000d ∨ d.Since = 0x00060013 ∨ d.Since = 0x0006000f) := by
  decide

/-! ## The claims -/

/-- C1: for every extension bitmask `b` and kernel version `v`, the check loop
over the `extensions` table reports, with exit code 1, the first entry in
declaration order that is required, whose `Since` is 0 or at most `v`, and whose
bit is absent from `b`; when no entry is such it reports that all required
extensions are supported, with exit code 0. The test `Since ≤ version` of the code
agrees with the specification's `minKernelVersion == 0 OR version >= minKernelVersion`. -/
theorem C1_check_loop_first_missing (b v : Nat) :
    checkExtensions extensions b v =
        (match extensions.find? (specMissing b v) with
         | some d => notSupported d.Text
         | none => allSupported) ∧
      ∀ d : extDesc,
        decide (d.Since ≤ v) = (decide (d.Since = 0) || decide (v ≥ d.Since)) := by
  refine ⟨?_, ?_⟩
  · rw [specMissing_eq]
    exact checkExtensions_eq_find extensions b v
  · intro d
    rcases Nat.eq_zero_or_pos d.Since with h0 | h0
    · simp [h0]
    · have : d.Since ≠ 0 := by omega
      simp [this]

/-- C2 as stated fails: the 65-byte release fields of the releases `0.65536.0` and
`1.0.0` have major and minor numbers below `2 ^ 32` and `(0, 65536)` is
lexicographically below `(1, 0)`, but `getKernelVersion` returns 65536 for both. -/
theorem C2_counterexample :
    ((releaseField "0.65536.0").length = 65 ∧ (releaseField "1.0.0").length = 65) ∧
      isRelease (releaseField "0.65536.0") 0 65536 ∧ isRelease (releaseField "1.0.0") 1 0 ∧
      (0 < 2 ^ 32 ∧ 65536 < 2 ^ 32 ∧ 1 < 2 ^ 32) ∧
      (getKernelVersion (unameOk (releaseField "0.65536.0"))).2 = 65536 ∧
      (getKernelVersion (unameOk (releaseField "1.0.0"))).2 = 65536 ∧
      ¬ ((getKernelVersion (unameOk (releaseField "0.65536.0"))).2 <
            (getKernelVersion (unameOk (releaseField "1.0.0"))).2 ↔
          lexLt 0 65536 1 0) := by
  refine ⟨by decide,
    ⟨"0", "65536", (strings.Split (releaseField "0.65536.0") '.').drop 2, by decide, rfl, rfl⟩,
    ⟨"1", "0", (strings.Split (releaseField "1.0.0") '.').drop 2, by decide, rfl, rfl⟩,
    by decide, by decide, by decide, ?_⟩
  decide

/-- C2, amended: for any two release strings `M1.m1...` and `M2.m2...` with
`M1`, `m1`, `M2`, `m2` each below `2 ^ 16`, the versions `getKernelVersion` returns
compare as integers exactly as `(M1, m1)` and `(M2, m2)` compare lexicographically. -/
theorem C2_version_order_16 (r1 r2 : String) (M1 m1 M2 m2 : Nat)
    (h1 : isRelease r1 M1 m1) (h2 : isRelease r2 M2 m2)
    (hM1 : M1 < 2 ^ 16) (hm1 : m1 < 2 ^ 16) (hM2 : M2 < 2 ^ 16) (hm2 : m2 < 2 ^ 16) :
    (getKernelVersion (unameOk r1)).2 < (getKernelVersion (unameOk r2)).2 ↔
      lexLt M1 m1 M2 m2 := by
  rw [getKernelVersion_unameOk, getKernelVersion_unameOk]
  simp only [versionOfRelease_of_isRelease h1, versionOfRelease_of_isRelease h2,
    pack16 _ _ hM1 hm1, pack16 _ _ hM2 hm2, lexLt]
  omega

/-- The amended C2 at the 65-byte release fields of `6.13.0` and `6.15.2-rc1`. -/
theorem C2_version_order_16_witness :
    isRelease (releaseField "6.13.0") 6 13 ∧ isRelease (releaseField "6.15.2-rc1") 6 15 ∧
      ((getKernelVersion (unameOk (releaseField "6.13.0"))).2 <
          (getKernelVersion (unameOk (releaseField "6.15.2-rc1"))).2 ↔
        lexLt 6 13 6 15) :=
  ⟨⟨"6", "13", (strings.Split (releaseField "6.13.0") '.').drop 2, by decide, rfl, rfl⟩,
    ⟨"6", "15", (strings.Split (releaseField "6.15.2-rc1") '.').drop 2, by decide, rfl, rfl⟩,
    C2_version_order_16 (releaseField "6.13.0") (releaseField "6.15.2-rc1") 6 13 6 15
      ⟨"6", "13", (strings.Split (releaseField "6.13.0") '.').drop 2, by decide, rfl, rfl⟩
      ⟨"6", "15", (strings.Split (releaseField "6.15.2-rc1") '.').drop 2, by decide, rfl, rfl⟩
      (by decide) (by decide) (by decide) (by decide)⟩

/-- C3: for every release string, if splitting it on the dot yields fewer than two
fields, or the first or the second field is not a non-empty string of decimal
digits, then `getKernelVersion` returns the sentinel 0. -/
theorem C3_parse_failure (r : String)
    (h : (strings.Split r '.').length < 2 ∨
      ¬ isDecimal ((strings.Split r '.').getD 0 "") ∨
      ¬ isDecimal ((strings.Split r '.').getD 1 "")) :
    (getKernelVersion (unameOk r)).2 = 0 := by
  rw [getKernelVersion_unameOk]
  simp only [versionOfRelease]
  rcases h with h | h | h
  · simp [h]
  · obtain ⟨e, he⟩ := strconv.ParseUint_error_of_not_decimal _ 32 h
    simp only [he]
    split_ifs <;> rfl
  · obtain ⟨e, he⟩ := strconv.ParseUint_error_of_not_decimal _ 32 h
    simp only [he]
    split_ifs
    · rfl
    · split <;> rfl

/-- C3 at the release `6.x.1`, whose second field is not a number. -/
theorem C3_parse_failure_witness :
    ¬ isDecimal ((strings.Split "6.x.1" '.').getD 1 "") ∧
      (getKernelVersion (unameOk "6.x.1")).2 = 0 :=
  ⟨by decide, C3_parse_failure "6.x.1" (Or.inr (Or.inr (by decide)))⟩

/-- C4: `main` exits with code 0 if and only if `getKernelVersion` returns a
non-zero version, the probe succeeds, bit 0 of the base-behavior value is set, and
no table entry is required, has `Since` at most the version and has its bit absent
from the extension bitmask; in every other case it exits with code 1. -/
theorem C4_exit_code (u : UnameResult) (p : HwprobeResult) :
    ((main u p).exitCode = 0 ↔
      ((getKernelVersion u).2 ≠ 0 ∧ 0 ≤ toInt p.ret ∧ p.Value0.testBit 0 = true ∧
        ∀ d ∈ extensions, ¬ (d.Required = true ∧ d.Since ≤ (getKernelVersion u).2 ∧
          p.Value1 &&& d.Key = 0))) ∧
    ((main u p).exitCode = 1 ↔
      ¬ ((getKernelVersion u).2 ≠ 0 ∧ 0 ≤ toInt p.ret ∧ p.Value0.testBit 0 = true ∧
        ∀ d ∈ extensions, ¬ (d.Required = true ∧ d.Since ≤ (getKernelVersion u).2 ∧
          p.Value1 &&& d.Key = 0))) := by
  unfold main
  by_cases hv : (getKernelVersion u).2 = 0
  · rw [mainWith_version_zero _ u p hv]
    simp [hv]
  by_cases hp : toInt p.ret < 0
  · rw [mainWith_probe_failed _ u p hv hp]
    simp [hp]
  have hp' : 0 ≤ toInt p.ret := by omega
  by_cases hb : p.Value0 &&& RISCV_HWPROBE_BASE_BEHAVIOR_IMA = 0
  · rw [mainWith_no_base _ u p hv hp' hb]
    have := (base_bit _).mp hb
    simp [this]
  · rw [mainWith_check _ u p hv hp' hb]
    have hb' : p.Value0.testBit 0 = true := by
      rw [base_bit] at hb
      simpa using hb
    have hall : (∀ d ∈ extensions, isMissing p.Value1 (getKernelVersion u).2 d = false) ↔
        ∀ d ∈ extensions, ¬ (d.Required = true ∧ d.Since ≤ (getKernelVersion u).2 ∧
          p.Value1 &&& d.Key = 0) := by
      constructor
      · intro h d hd hm
        have := (isMissing_iff _ _ d).mpr hm
        rw [h d hd] at this
        exact Bool.noConfusion this
      · intro h d hd
        have := h d hd
        rw [← isMissing_iff] at this
        simpa using this
    refine ⟨?_, ?_⟩
    · simp only [checkExtensions_exitCode_zero, hall]
      exact ⟨fun h => ⟨hv, hp', hb', h⟩, fun h => h.2.2.2⟩
    · simp only [checkExtensions_exitCode_one]
      rw [← hall]
      constructor
      · rintro ⟨d, hd, hm⟩ ⟨_, _, _, h⟩
        rw [h d hd] at hm
        exact Bool.noConfusion hm
      · intro h
        by_contra hne
        apply h
        refine ⟨hv, hp', hb', ?_⟩
        intro d hd
        by_contra hm
        exact hne ⟨d, hd, by simpa using hm⟩

/-- C5: for every resolved (non-zero) version and every successful probe whose
base-behavior value has bit 0 clear, `main` writes the release line, issues the
probe, writes that the RISC-V base is not supported and exits with code 1,
whatever the extension bitmask and whatever the table: no entry is examined, and
neither a report line of the table nor the success line is written. -/
theorem C5_baseline_gate (u : UnameResult) (p : HwprobeResult)
    (hv : (getKernelVersion u).2 ≠ 0) (hp : 0 ≤ toInt p.ret)
    (hb : p.Value0.testBit 0 = false) :
    main u p =
        ⟨[.stdout ("Kernel release " ++ u.Release ++ "\n"), hwprobeCall,
          .stdout "RISC-V base is NOT supported.\n"], 1⟩ ∧
      (∀ table, mainWith table u p = main u p) ∧
      Event.stdout "All required extensions supported\n" ∉ (main u p).trace ∧
      ∀ d ∈ extensions, Event.stdout (d.Text ++ " NOT supported\n") ∉ (main u p).trace := by
  have hb' := (base_bit _).mpr hb
  have hm : ∀ table, mainWith table u p =
      ⟨[.stdout ("Kernel release " ++ u.Release ++ "\n"), hwprobeCall,
          .stdout "RISC-V base is NOT supported.\n"], 1⟩ := by
    intro table
    rw [mainWith_no_base table u p hv hp hb', getKernelVersion_trace_of_ne_zero u hv]
    rfl
  have hK := kernelLine_head u.Release
  refine ⟨hm _, fun table => by rw [main, hm, hm], ?_, ?_⟩
  · rw [main, hm]
    simp only [List.mem_cons, Event.stdout.injEq, hwprobeCall, List.mem_nil_iff, or_false,
      not_or]
    refine ⟨?_, by simp, by decide⟩
    intro h
    rw [← h] at hK
    exact absurd hK (by decide)
  · intro d hd
    rw [main, hm]
    simp only [List.mem_cons, Event.stdout.injEq, hwprobeCall, List.mem_nil_iff, or_false,
      not_or]
    refine ⟨?_, by simp, (label_head d hd).2⟩
    intro h
    rw [← h] at hK
    exact (label_head d hd).1 hK

/-- C5 at release `6.15.0` with base-behavior value 0 and every extension bit set. -/
theorem C5_baseline_gate_witness :
    (getKernelVersion (unameOk "6.15.0")).2 ≠ 0 ∧
      main (unameOk "6.15.0") ⟨0, "", 0, 2 ^ 63 - 1⟩ =
        ⟨[.stdout "Kernel release 6.15.0\n", hwprobeCall,
          .stdout "RISC-V base is NOT supported.\n"], 1⟩ :=
  ⟨by decide, (C5_baseline_gate (unameOk "6.15.0") ⟨0, "", 0, 2 ^ 63 - 1⟩
    (by decide) (by decide) (by decide)).1⟩

/-- C6: for every table entry `d` that is required and whose `Since` is greater
than the version `v`, and for every extension bitmask `b`, the check loop does not
report `d`: its output is not the report line of `d`. Release `6.10.0` with a
bitmask missing only the Zicntr bit yields the success line and exit code 0. -/
theorem C6_gated_entry_not_reported (d : extDesc) (hd : d ∈ extensions)
    (_hreq : d.Required = true) (b v : Nat) (hv : v < d.Since) :
    checkExtensions extensions b v ≠ notSupported d.Text ∧
      Event.stdout (d.Text ++ " NOT supported\n") ∉ (checkExtensions extensions b v).trace ∧
      main (unameOk "6.10.0") ⟨0, "", 1, 2 ^ 64 - 1 - RISCV_HWPROBE_EXT_ZICNTR⟩ =
        ⟨[.stdout "Kernel release 6.10.0\n", hwprobeCall,
          .stdout "All required extensions supported\n"], 0⟩ := by
  have key : Event.stdout (d.Text ++ " NOT supported\n") ∉
      (checkExtensions extensions b v).trace := by
    rcases checkExtensions_cases extensions b v with h | ⟨e, he, hm, h⟩
    · rw [h]
      simp only [allSupported, List.mem_singleton, Event.stdout.injEq]
      exact allSupported_ne_label d hd
    · rw [h]
      simp only [notSupported, List.mem_singleton, Event.stdout.injEq]
      intro heq
      have hed : e = d := entry_eq_of_line_eq hd he heq.symm
      rw [hed, isMissing_iff] at hm
      omega
  refine ⟨?_, key, by decide⟩
  intro h
  rw [h] at key
  exact key (by simp [notSupported])

/-- C6 at the Zicntr entry, release `6.10.0` and a bitmask missing only its bit. -/
theorem C6_gated_entry_not_reported_witness :
    (⟨RISCV_HWPROBE_EXT_ZICNTR, "Zicntr", true, 0x0006000f⟩ : extDesc) ∈ extensions ∧
      (getKernelVersion (unameOk "6.10.0")).2 < 0x0006000f ∧
      checkExtensions extensions (2 ^ 64 - 1 - RISCV_HWPROBE_EXT_ZICNTR)
        (getKernelVersion (unameOk "6.10.0")).2 ≠ notSupported "Zicntr" :=
  ⟨by decide, by decide,
    (C6_gated_entry_not_reported ⟨RISCV_HWPROBE_EXT_ZICNTR, "Zicntr", true, 0x0006000f⟩
      (by decide) rfl (2 ^ 64 - 1 - RISCV_HWPROBE_EXT_ZICNTR)
      (getKernelVersion (unameOk "6.10.0")).2 (by decide)).1⟩

/-- C7 as stated fails: the Zihpm entry is required and gated at 6.15, the version
of release `6.15.0` reaches its gate and the bitmask lacks its bit, but the
bitmask also lacks the Zicntr bit, whose entry comes first in the table, and the
loop reports Zicntr, not Zihpm. -/
theorem C7_counterexample :
    (⟨RISCV_HWPROBE_EXT_ZIHPM, "Zihpm", true, 0x0006000f⟩ : extDesc) ∈ extensions ∧
      (0x0006000f ≠ 0 ∧ (getKernelVersion (unameOk "6.15.0")).2 ≥ 0x0006000f) ∧
      (2 ^ 64 - 1 - RISCV_HWPROBE_EXT_ZICNTR - RISCV_HWPROBE_EXT_ZIHPM) &&&
        RISCV_HWPROBE_EXT_ZIHPM = 0 ∧
      checkExtensions extensions
          (2 ^ 64 - 1 - RISCV_HWPROBE_EXT_ZICNTR - RISCV_HWPROBE_EXT_ZIHPM)
          (getKernelVersion (unameOk "6.15.0")).2 = notSupported "Zicntr" ∧
      checkExtensions extensions
          (2 ^ 64 - 1 - RISCV_HWPROBE_EXT_ZICNTR - RISCV_HWPROBE_EXT_ZIHPM)
          (getKernelVersion (unameOk "6.15.0")).2 ≠ notSupported "Zihpm" := by
  decide

/-- C7, amended: for every table entry `d` that is required and has a non-zero
`Since`, every version `v` at least `d.Since` and every extension bitmask `b` in
which the bit of `d` is absent, the check loop exits with code 1, and it reports
`d` itself exactly when no entry before `d` in the table is required, has `Since`
at most `v` and has its bit absent from `b`. Release `6.15.0` with a bitmask
missing only the Zicntr bit reports Zicntr. -/
theorem C7_gated_entry_reported (pre post : List extDesc) (d : extDesc)
    (hd : extensions = pre ++ d :: post) (hreq : d.Required = true) (_hs : d.Since ≠ 0)
    (b v : Nat) (hv : v ≥ d.Since) (hb : b &&& d.Key = 0) :
    (checkExtensions extensions b v).exitCode = 1 ∧
      (checkExtensions extensions b v = notSupported d.Text ↔
        ∀ e ∈ pre, ¬ (e.Required = true ∧ e.Since ≤ v ∧ b &&& e.Key = 0)) ∧
      main (unameOk "6.15.0") ⟨0, "", 1, 2 ^ 64 - 1 - RISCV_HWPROBE_EXT_ZICNTR⟩ =
        ⟨[.stdout "Kernel release 6.15.0\n", hwprobeCall,
          .stdout "Zicntr NOT supported\n"], 1⟩ := by
  have hmem : d ∈ extensions := by rw [hd]; simp
  have hmiss : isMissing b v d = true := (isMissing_iff b v d).mpr ⟨hreq, hv, hb⟩
  refine ⟨(checkExtensions_exitCode_one _ b v).mpr ⟨d, hmem, hmiss⟩, ?_, by decide⟩
  constructor
  · intro h e he hme
    have hnd : d ∉ pre := by
      have := extensions_nodup
      rw [hd, List.nodup_append] at this
      intro hin
      exact this.2.2 hin (by simp)
    have hfind : ∃ x, pre.find? (isMissing b v) = some x := by
      cases hf : pre.find? (isMissing b v) with
      | some x => exact ⟨x, rfl⟩
      | none =>
        rw [List.find?_eq_none] at hf
        exact absurd ((isMissing_iff b v e).mpr hme) (hf e he)
    obtain ⟨x, hx⟩ := hfind
    have hxpre : x ∈ pre := List.mem_of_find?_eq_some hx
    have hrun : checkExtensions extensions b v = notSupported x.Text := by
      rw [checkExtensions_eq_find, hd, List.find?_append, hx]
      rfl
    rw [hrun] at h
    have hline : x.Text ++ " NOT supported\n" = d.Text ++ " NOT supported\n" := by
      simpa [notSupported] using h
    have hxmem : x ∈ extensions := by rw [hd]; simp [hxpre]
    have := entry_eq_of_line_eq hmem hxmem hline
    exact hnd (this ▸ hxpre)
  · intro h
    rw [hd]
    apply checkExtensions_append_cons _ _ _ _ _ _ hmiss
    intro e he
    have := h e he
    rw [← isMissing_iff] at this
    simpa using this

/-- The amended C7 at the Zicntr entry, release `6.15.0` and a bitmask missing
only its bit: no earlier entry is missing, and Zicntr is reported. -/
theorem C7_gated_entry_reported_witness :
    extensions = extensions.take 35 ++
        (⟨RISCV_HWPROBE_EXT_ZICNTR, "Zicntr", true, 0x0006000f⟩ : extDesc) ::
          extensions.drop 36 ∧
      (getKernelVersion (unameOk "6.15.0")).2 ≥ 0x0006000f ∧
      checkExtensions extensions (2 ^ 64 - 1 - RISCV_HWPROBE_EXT_ZICNTR)
        (getKernelVersion (unameOk "6.15.0")).2 = notSupported "Zicntr" :=
  ⟨by decide, by decide,
    ((C7_gated_entry_reported (extensions.take 35) (extensions.drop 36)
      ⟨RISCV_HWPROBE_EXT_ZICNTR, "Zicntr", true, 0x0006000f⟩ (by decide) rfl (by decide)
      (2 ^ 64 - 1 - RISCV_HWPROBE_EXT_ZICNTR) (getKernelVersion (unameOk "6.15.0")).2
      (by decide) (by decide)).2.1).mpr (by decide)⟩

/-- C8 as stated fails: with release `6.15.2` and base-behavior value 1, the
bitmask with every bit set except the Supm bit has the bit of every required entry
with `Since` 0 and of every entry gated at 6.15, but Supm is required since 6.13
and `main` reports it and exits with code 1. -/
theorem C8_counterexample :
    (∀ d ∈ extensions, d.Required = true → d.Since = 0 →
        (2 ^ 64 - 1 - RISCV_HWPROBE_EXT_SUPM) &&& d.Key ≠ 0) ∧
      (∀ d ∈ extensions, d.Since = 0x0006000f →
        (2 ^ 64 - 1 - RISCV_HWPROBE_EXT_SUPM) &&& d.Key ≠ 0) ∧
      main (unameOk "6.15.2") ⟨0, "", 1, 2 ^ 64 - 1 - RISCV_HWPROBE_EXT_SUPM⟩ =
        ⟨[.stdout "Kernel release 6.15.2\n", hwprobeCall,
          .stdout "Supm NOT supported\n"], 1⟩ := by
  decide

/-- C8, amended: with the version resolved from release `6.15.2`, a successful
probe and base-behavior value 1, for every extension bitmask that has the bit of
every required table entry whose `Since` is at most `0x0006000f` set (the entries
with `Since` 0, those gated at 6.15, and Supm, gated at 6.13), the check loop
writes the success line and `main` exits with code 0. -/
theorem C8_scenario_all_supported (ret : Nat) (txt : String) (b : Nat)
    (hret : 0 ≤ toInt ret)
    (hb : ∀ d ∈ extensions, d.Required = true → d.Since ≤ 0x0006000f → b &&& d.Key ≠ 0) :
    checkExtensions extensions b (getKernelVersion (unameOk "6.15.2")).2 = allSupported ∧
      main (unameOk "6.15.2") ⟨ret, txt, 1, b⟩ =
        ⟨[.stdout "Kernel release 6.15.2\n", hwprobeCall,
          .stdout "All required extensions supported\n"], 0⟩ := by
  have hver : (getKernelVersion (unameOk "6.15.2")).2 = 0x0006000f := by decide
  have hall : checkExtensions extensions b 0x0006000f = allSupported := by
    rcases checkExtensions_cases extensions b 0x0006000f with h | ⟨e, he, hm, _⟩
    · exact h
    · rw [isMissing_iff] at hm
      exact absurd hm.2.2 (hb e he hm.1 hm.2.1)
  refine ⟨by rw [hver, hall], ?_⟩
  have hbase :
      (HwprobeResult.mk ret txt 1 b).Value0 &&& RISCV_HWPROBE_BASE_BEHAVIOR_IMA ≠ 0 := by
    show 1 &&& RISCV_HWPROBE_BASE_BEHAVIOR_IMA ≠ 0
    decide
  rw [main, mainWith_check _ _ _ (by rw [hver]; decide) hret hbase, hver, hall]
  rfl

/-- The amended C8 at the bitmask with bits 0 to 62 all set. -/
theorem C8_scenario_all_supported_witness :
    (∀ d ∈ extensions, d.Required = true → d.Since ≤ 0x0006000f →
        (2 ^ 63 - 1) &&& d.Key ≠ 0) ∧
      main (unameOk "6.15.2") ⟨0, "", 1, 2 ^ 63 - 1⟩ =
        ⟨[.stdout "Kernel release 6.15.2\n", hwprobeCall,
          .stdout "All required extensions supported\n"], 0⟩ :=
  ⟨by decide, (C8_scenario_all_supported 0 "" (2 ^ 63 - 1) (by decide) (by decide)).2⟩

/-- C9: for every permutation `P` of the `extensions` table, every extension
bitmask and every version, the check loop over `P` fails if and only if the loop
over the table fails (and succeeds if and only if it succeeds); what it reports is
the label of the first entry of `P`, in the order walked, that is required, gated
at or below the version, and absent from the bitmask. -/
theorem C9_order_independent (P : List extDesc) (hP : P.Perm extensions) (b v : Nat) :
    ((checkExtensions P b v).exitCode = 1 ↔ (checkExtensions extensions b v).exitCode = 1) ∧
      ((checkExtensions P b v).exitCode = 0 ↔ (checkExtensions extensions b v).exitCode = 0) ∧
      checkExtensions P b v =
        (match P.find? (specMissing b v) with
         | some d => notSupported d.Text
         | none => allSupported) := by
  refine ⟨?_, ?_, ?_⟩
  · simp only [checkExtensions_exitCode_one]
    exact ⟨fun ⟨d, hd, h⟩ => ⟨d, hP.mem_iff.mp hd, h⟩,
      fun ⟨d, hd, h⟩ => ⟨d, hP.mem_iff.mpr hd, h⟩⟩
  · simp only [checkExtensions_exitCode_zero]
    exact ⟨fun h d hd => h d (hP.mem_iff.mpr hd), fun h d hd => h d (hP.mem_iff.mp hd)⟩
  · rw [specMissing_eq]
    exact checkExtensions_eq_find P b v

/-- C9 at the reversed table with an empty bitmask at version 6.15: both orders
fail, the reversed one naming Zicbom and the original one naming F and D. -/
theorem C9_order_independent_witness :
    extensions.reverse.Perm extensions ∧
      ((checkExtensions extensions.reverse 0 0x0006000f).exitCode = 1 ↔
        (checkExtensions extensions 0 0x0006000f).exitCode = 1) ∧
      checkExtensions extensions.reverse 0 0x0006000f = notSupported "Zicbom" ∧
      checkExtensions extensions 0 0x0006000f = notSupported "F and D" :=
  ⟨List.reverse_perm _,
    (C9_order_independent extensions.reverse (List.reverse_perm _) 0 0x0006000f).1,
    by decide, by decide⟩

/-- C10: for any two release strings whose first dot-separated field is the same
string and whose second field is the same string, `getKernelVersion` returns the
same version, and on the same probe result `main` exits with the same code and
writes the same lines after the release line. -/
theorem C10_only_two_fields (r1 r2 f0 f1 : String) (rest1 rest2 : List String)
    (h1 : strings.Split r1 '.' = f0 :: f1 :: rest1)
    (h2 : strings.Split r2 '.' = f0 :: f1 :: rest2) :
    (getKernelVersion (unameOk r1)).2 = (getKernelVersion (unameOk r2)).2 ∧
      ∀ p : HwprobeResult,
        (main (unameOk r1) p).exitCode = (main (unameOk r2) p).exitCode ∧
        (main (unameOk r1) p).trace.tail = (main (unameOk r2) p).trace.tail := by
  have hv : versionOfRelease r1 = versionOfRelease r2 := by
    have hlen1 : ¬ (rest1.length + 1 + 1 < 2) := by omega
    have hlen2 : ¬ (rest2.length + 1 + 1 < 2) := by omega
    simp [versionOfRelease, h1, h2, hlen1, hlen2]
  refine ⟨by rw [getKernelVersion_unameOk, getKernelVersion_unameOk]; exact hv, ?_⟩
  intro p
  exact ⟨(mainWith_tail extensions r1 r2 p hv).2, (mainWith_tail extensions r1 r2 p hv).1⟩

/-- C10 at the releases `6.15.0-rc1` and `6.15.7.generic.riscv64`. -/
theorem C10_only_two_fields_witness :
    strings.Split "6.15.0-rc1" '.' = ["6", "15", "0-rc1"] ∧
      strings.Split "6.15.7.generic.riscv64" '.' = ["6", "15", "7", "generic", "riscv64"] ∧
      (getKernelVersion (unameOk "6.15.0-rc1")).2 =
        (getKernelVersion (unameOk "6.15.7.generic.riscv64")).2 :=
  ⟨by decide, by decide,
    (C10_only_two_fields "6.15.0-rc1" "6.15.7.generic.riscv64" "6" "15" ["0-rc1"]
      ["7", "generic", "riscv64"] (by decide) (by decide)).1⟩


/-- C11 as stated fails on releases with a field of `2 ^ 16` or more. The 65-byte
release field of `5.131087.0` parses to `(5, 131087)`, which is lexicographically
below `(6, 15)`, but its version is `0x0007000f`, the 6.15 threshold is reached and
`main` reports a missing Zicntr. The release field of `65542.14.0` parses to
`(65542, 14)`, which is not below `(6, 15)`, but its version is `0x0006000e`, the
threshold is not reached and `main` passes a bitmask without Zicntr. -/
theorem C11_counterexample :
    ((releaseField "5.131087.0").length = 65 ∧ (releaseField "65542.14.0").length = 65) ∧
      isRelease (releaseField "5.131087.0") 5 131087 ∧ lexLt 5 131087 6 15 ∧
      (getKernelVersion (unameOk (releaseField "5.131087.0"))).2 = 0x0007000f ∧
      main (unameOk (releaseField "5.131087.0"))
          ⟨0, "", 1, 2 ^ 64 - 1 - RISCV_HWPROBE_EXT_ZICNTR⟩ =
        ⟨[.stdout ("Kernel release " ++ releaseField "5.131087.0" ++ "\n"), hwprobeCall,
          .stdout "Zicntr NOT supported\n"], 1⟩ ∧
      isRelease (releaseField "65542.14.0") 65542 14 ∧ ¬ lexLt 65542 14 6 15 ∧
      (getKernelVersion (unameOk (releaseField "65542.14.0"))).2 = 0x0006000e ∧
      main (unameOk (releaseField "65542.14.0"))
          ⟨0, "", 1, 2 ^ 64 - 1 - RISCV_HWPROBE_EXT_ZICNTR⟩ =
        ⟨[.stdout ("Kernel release " ++ releaseField "65542.14.0" ++ "\n"), hwprobeCall,
          .stdout "All required extensions supported\n"], 0⟩ := by
  refine ⟨by decide,
    ⟨"5", "131087", (strings.Split (releaseField "5.131087.0") '.').drop 2, by decide, rfl, rfl⟩,
    by decide, by decide, by decide,
    ⟨"65542", "14", (strings.Split (releaseField "65542.14.0") '.').drop 2, by decide, rfl,
      rfl⟩,
    by decide, by decide, by decide⟩

/-- C11, amended: the version thresholds written as literals in the `extensions`
table are the values `getKernelVersion` computes for the releases named beside
them: `0x0006000f` for every release `6.15.<rest>`, `0x0006000d` for every release
`6.13.<rest>` and `0x00060013` for every release `6.19.<rest>`; every gated entry
carries the one that belongs to it (Supm 6.13, Zicbop 6.19, the five others 6.15),
so it is binding at a version exactly when that version is at least the version
of the release named beside it; and for a release `M.m...` whose major and minor
are both below `2 ^ 16` that is exactly when `(M, m)` is not lexicographically
below the named release. -/
theorem C11_thresholds_are_versions (rest : String) (v : Nat) :
    (getKernelVersion (unameOk ("6.15." ++ rest))).2 = 0x0006000f ∧
      (getKernelVersion (unameOk ("6.13." ++ rest))).2 = 0x0006000d ∧
      (getKernelVersion (unameOk ("6.19." ++ rest))).2 = 0x00060013 ∧
      (∀ d ∈ extensions, d.Since ≠ 0 →
        (d.Text = "Supm" ∧ d.Since = (getKernelVersion (unameOk ("6.13." ++ rest))).2) ∨
        (d.Text = "Zicbop" ∧ d.Since = (getKernelVersion (unameOk ("6.19." ++ rest))).2) ∨
        (d.Text ∈ ["Zicntr", "Zihpm", "Zaamo", "Zalrsc", "Zicbom"] ∧
          d.Since = (getKernelVersion (unameOk ("6.15." ++ rest))).2)) ∧
      (∀ d ∈ extensions, d.Since ≠ 0 →
        ((d.Required = true ∧ d.Since ≤ v) ↔
          (d.Text = "Supm" ∧ (getKernelVersion (unameOk ("6.13." ++ rest))).2 ≤ v) ∨
          (d.Text = "Zicbop" ∧ (getKernelVersion (unameOk ("6.19." ++ rest))).2 ≤ v) ∨
          (d.Text ∈ ["Zicntr", "Zihpm", "Zaamo", "Zalrsc", "Zicbom"] ∧
            (getKernelVersion (unameOk ("6.15." ++ rest))).2 ≤ v))) ∧
      ∀ (r : String) (M m : Nat), isRelease r M m → M < 2 ^ 16 → m < 2 ^ 16 →
        ((0x0006000f ≤ (getKernelVersion (unameOk r)).2 ↔ ¬ lexLt M m 6 15) ∧
          (0x0006000d ≤ (getKernelVersion (unameOk r)).2 ↔ ¬ lexLt M m 6 13) ∧
          (0x00060013 ≤ (getKernelVersion (unameOk r)).2 ↔ ¬ lexLt M m 6 19)) := by
  have e15 : "6.15." ++ rest = "6" ++ "." ++ "15" ++ "." ++ rest := by
    simp [String.append_assoc]
  have e13 : "6.13." ++ rest = "6" ++ "." ++ "13" ++ "." ++ rest := by
    simp [String.append_assoc]
  have e19 : "6.19." ++ rest = "6" ++ "." ++ "19" ++ "." ++ rest := by
    simp [String.append_assoc]
  have h15 : (getKernelVersion (unameOk ("6.15." ++ rest))).2 = 0x0006000f := by
    rw [getKernelVersion_unameOk, e15]
    exact versionOfRelease_prefix "6" "15" rest _ (by decide) (by decide) (by decide)
      (by decide)
  have h13 : (getKernelVersion (unameOk ("6.13." ++ rest))).2 = 0x0006000d := by
    rw [getKernelVersion_unameOk, e13]
    exact versionOfRelease_prefix "6" "13" rest _ (by decide) (by decide) (by decide)
      (by decide)
  have h19 : (getKernelVersion (unameOk ("6.19." ++ rest))).2 = 0x00060013 := by
    rw [getKernelVersion_unameOk, e19]
    exact versionOfRelease_prefix "6" "19" rest _ (by decide) (by decide) (by decide)
      (by decide)
  refine ⟨h15, h13, h19, ?_, ?_, ?_⟩
  · rw [h15, h13, h19]
    intro d hd h0
    obtain ⟨_, hS, hP, hL, hcases⟩ := extensions_gated d hd h0
    rcases hcases with h | h | h
    · exact Or.inl ⟨hS.mpr h, h⟩
    · exact Or.inr (Or.inl ⟨hP.mpr h, h⟩)
    · exact Or.inr (Or.inr ⟨hL.mpr h, h⟩)
  · rw [h15, h13, h19]
    intro d hd h0
    obtain ⟨hreq, hS, hP, hL, hcases⟩ := extensions_gated d hd h0
    constructor
    · rintro ⟨_, hle⟩
      rcases hcases with h | h | h
      · exact Or.inl ⟨hS.mpr h, by omega⟩
      · exact Or.inr (Or.inl ⟨hP.mpr h, by omega⟩)
      · exact Or.inr (Or.inr ⟨hL.mpr h, by omega⟩)
    · rintro (⟨ht, hle⟩ | ⟨ht, hle⟩ | ⟨ht, hle⟩)
      · have := hS.mp ht
        exact ⟨hreq, by omega⟩
      · have := hP.mp ht
        exact ⟨hreq, by omega⟩
      · have := hL.mp ht
        exact ⟨hreq, by omega⟩
  · intro r M m hr hM hm
    rw [getKernelVersion_unameOk, versionOfRelease_of_isRelease hr, pack16 _ _ hM hm]
    simp only [lexLt]
    omega

/-- The amended C11 at the 65-byte release field of `6.15.0-rc1`, whose version is
the 6.15 threshold, and at the release field of `6.14.9`, which does not reach it. -/
theorem C11_thresholds_are_versions_witness :
    (getKernelVersion (unameOk (releaseField "6.15.0-rc1"))).2 = 0x0006000f ∧
      isRelease (releaseField "6.14.9") 6 14 ∧
      (0x0006000f ≤ (getKernelVersion (unameOk (releaseField "6.14.9"))).2 ↔
        ¬ lexLt 6 14 6 15) :=
  have e : releaseField "6.15.0-rc1" =
      "6.15." ++ String.mk ("0-rc1".toList ++ List.replicate 55 (Char.ofNat 0)) := by decide
  ⟨e ▸ (C11_thresholds_are_versions
      (String.mk ("0-rc1".toList ++ List.replicate 55 (Char.ofNat 0))) 0x0006000f).1,
    ⟨"6", "14", (strings.Split (releaseField "6.14.9") '.').drop 2, by decide, rfl, rfl⟩,
    ((C11_thresholds_are_versions
      (String.mk ("0-rc1".toList ++ List.replicate 55 (Char.ofNat 0)))
      0x0006000f).2.2.2.2.2 (releaseField "6.14.9") 6 14
      ⟨"6", "14", (strings.Split (releaseField "6.14.9") '.').drop 2, by decide, rfl, rfl⟩
      (by decide) (by decide)).1⟩

set_option maxRecDepth 100000 in
/-- C12: every entry of the `extensions` table has a key with exactly one bit
set, at a position below 63; the keys of the 63 entries are pairwise distinct;
their bitwise OR is `2 ^ 63 - 1`, so they cover exactly the positions 0 to 62, and
no entry uses bit 63. -/
theorem C12_table_well_formed :
    extensions.length = 63 ∧
      (∀ d ∈ extensions, ∃ i, i < 63 ∧ d.Key = 2 ^ i) ∧
      (extensions.map extDesc.Key).Nodup ∧
      (extensions.map extDesc.Key).foldr (fun k acc => k ||| acc) 0 = 2 ^ 63 - 1 ∧
      (∀ i, i < 63 → ∃ d ∈ extensions, d.Key = 2 ^ i) ∧
      ∀ d ∈ extensions, d.Key.testBit 63 = false := by
  refine ⟨by decide, by decide, by decide, by decide, by decide, by decide⟩


/-- C13: whenever `getKernelVersion` returns 0 (as for the release `notanumber`),
`main` writes its diagnostic to standard error and exits with code 1 without
issuing the `riscv_hwprobe` call: the run is the same for every probe result, no
probe step occurs in it, and neither the line about the base, nor the success
line, nor a report line of the table is written. -/
theorem C13_unresolved_short_circuit (u : UnameResult) (p : HwprobeResult)
    (hv : (getKernelVersion u).2 = 0) :
    main u p =
        ⟨(getKernelVersion u).1 ++ [.stderr "Can't get kernel version number"], 1⟩ ∧
      (∀ q : HwprobeResult, main u q = main u p) ∧
      (∀ items count, Event.hwprobe items count ∉ (main u p).trace) ∧
      Event.stdout "RISC-V base is NOT supported.\n" ∉ (main u p).trace ∧
      Event.stdout "All required extensions supported\n" ∉ (main u p).trace ∧
      (∀ d ∈ extensions, Event.stdout (d.Text ++ " NOT supported\n") ∉ (main u p).trace) ∧
      main (unameOk "notanumber") p =
        ⟨[.stdout "Kernel release notanumber\n",
          .stderr "Can't get kernel version number"], 1⟩ := by
  have hm : ∀ q, main u q =
      ⟨(getKernelVersion u).1 ++ [.stderr "Can't get kernel version number"], 1⟩ :=
    fun q => mainWith_version_zero extensions u q hv
  have hK := kernelLine_head u.Release
  refine ⟨hm p, fun q => by rw [hm q, hm p], ?_, ?_, ?_, ?_, ?_⟩
  · intro items count
    rw [hm p]
    rcases getKernelVersion_trace u with h | h <;> rw [h] <;> simp
  · rw [hm p]
    rcases getKernelVersion_trace u with h | h <;> rw [h]
    · simp
    · simp only [List.singleton_append, List.mem_cons, Event.stdout.injEq, List.mem_nil_iff,
        or_false, not_or]
      refine ⟨?_, by simp⟩
      intro heq
      rw [← heq] at hK
      exact absurd hK (by decide)
  · rw [hm p]
    rcases getKernelVersion_trace u with h | h <;> rw [h]
    · simp
    · simp only [List.singleton_append, List.mem_cons, Event.stdout.injEq, List.mem_nil_iff,
        or_false, not_or]
      refine ⟨?_, by simp⟩
      intro heq
      rw [← heq] at hK
      exact absurd hK (by decide)
  · intro d hd
    rw [hm p]
    rcases getKernelVersion_trace u with h | h <;> rw [h]
    · simp
    · simp only [List.singleton_append, List.mem_cons, Event.stdout.injEq, List.mem_nil_iff,
        or_false, not_or]
      refine ⟨?_, by simp⟩
      intro heq
      rw [← heq] at hK
      exact (label_head d hd).1 hK
  · exact mainWith_version_zero extensions (unameOk "notanumber") p (by decide)

/-- C13 at the release `notanumber` with a probe result that would pass. -/
theorem C13_unresolved_short_circuit_witness :
    (getKernelVersion (unameOk "notanumber")).2 = 0 ∧
      ∀ q : HwprobeResult,
        main (unameOk "notanumber") q = main (unameOk "notanumber") ⟨0, "", 1, 2 ^ 63 - 1⟩ :=
  ⟨by decide,
    (C13_unresolved_short_circuit (unameOk "notanumber") ⟨0, "", 1, 2 ^ 63 - 1⟩
      (by decide)).2.1⟩

/-- C14 as stated fails: both of the first two fields of the 65-byte release
fields of `0.0.0` and `65536.0.0` parse with `ParseUint` (base 10, 32 bits), and
`getKernelVersion` returns 0 for each, after which `main` reports that it cannot
get the kernel version. -/
theorem C14_counterexample :
    ((releaseField "0.0.0").length = 65 ∧ (releaseField "65536.0.0").length = 65) ∧
      isRelease (releaseField "0.0.0") 0 0 ∧
      (getKernelVersion (unameOk (releaseField "0.0.0"))).2 = 0 ∧
      isRelease (releaseField "65536.0.0") 65536 0 ∧
      (getKernelVersion (unameOk (releaseField "65536.0.0"))).2 = 0 ∧
      main (unameOk (releaseField "0.0.0")) ⟨0, "", 1, 2 ^ 63 - 1⟩ =
        ⟨[.stdout ("Kernel release " ++ releaseField "0.0.0" ++ "\n"),
          .stderr "Can't get kernel version number"], 1⟩ := by
  refine ⟨by decide,
    ⟨"0", "0", (strings.Split (releaseField "0.0.0") '.').drop 2, by decide, rfl, rfl⟩,
    by decide,
    ⟨"65536", "0", (strings.Split (releaseField "65536.0.0") '.').drop 2, by decide, rfl, rfl⟩,
    by decide, by decide⟩

/-- C14, amended: for every release string whose first two dot-separated fields
parse with `ParseUint` (base 10, 32 bits) to `M` and `m`, `getKernelVersion`
returns 0 exactly when `m` is 0 and `M` is a multiple of `2 ^ 16`, and a non-zero
version in every other case. -/
theorem C14_version_zero_iff (r : String) (M m : Nat) (h : isRelease r M m) :
    ((getKernelVersion (unameOk r)).2 = 0 ↔ M % 2 ^ 16 = 0 ∧ m = 0) ∧
      ((getKernelVersion (unameOk r)).2 ≠ 0 ↔ ¬ (M % 2 ^ 16 = 0 ∧ m = 0)) := by
  have hM : M < 2 ^ 32 := by
    obtain ⟨_, _, _, _, h0, _⟩ := h
    exact strconv.ParseUint_lt h0
  have hm : m < 2 ^ 32 := by
    obtain ⟨_, _, _, _, _, h1⟩ := h
    exact strconv.ParseUint_lt h1
  have key : (getKernelVersion (unameOk r)).2 = 0 ↔ M % 2 ^ 16 = 0 ∧ m = 0 := by
    rw [getKernelVersion_unameOk, versionOfRelease_of_isRelease h]
    have h1 : toUint32 M = M := Nat.mod_eq_of_lt hM
    have h2 : toUint32 m = m := Nat.mod_eq_of_lt hm
    rw [h1, h2, Nat.shiftLeft_eq]
    dsimp only
    constructor
    · intro hz
      have := or_eq_zero hz
      omega
    · rintro ⟨hMz, rfl⟩
      have : M * 2 ^ 16 % 2 ^ 32 = 0 := by omega
      rw [this]
      rfl
  exact ⟨key, not_congr key⟩

/-- The amended C14 at the 65-byte release fields of `6.15.0`, whose version is
not 0, and of `65536.0.0`, whose version is 0. -/
theorem C14_version_zero_iff_witness :
    isRelease (releaseField "6.15.0") 6 15 ∧
      (getKernelVersion (unameOk (releaseField "6.15.0"))).2 ≠ 0 ∧
      (getKernelVersion (unameOk (releaseField "65536.0.0"))).2 = 0 :=
  ⟨⟨"6", "15", (strings.Split (releaseField "6.15.0") '.').drop 2, by decide, rfl, rfl⟩,
    (C14_version_zero_iff (releaseField "6.15.0") 6 15
      ⟨"6", "15", (strings.Split (releaseField "6.15.0") '.').drop 2, by decide, rfl, rfl⟩).2.mpr
      (by decide),
    (C14_version_zero_iff (releaseField "65536.0.0") 65536 0
      ⟨"65536", "0", (strings.Split (releaseField "65536.0.0") '.').drop 2, by decide, rfl,
        rfl⟩).1.mpr (by decide)⟩

/-- C15: for every release string whose first two dot-separated fields are
decimal numerals of `M` and `m`, both below `2 ^ 16`, `getKernelVersion` returns
exactly `M * 65536 + m`, a 32-bit value; and for two such releases, a
lexicographically smaller `(M, m)` gives a strictly smaller version. -/
theorem C15_packing_16 (r1 r2 f1 g1 f2 g2 : String) (rest1 rest2 : List String)
    (M1 m1 M2 m2 : Nat)
    (hs1 : strings.Split r1 '.' = f1 :: g1 :: rest1)
    (hs2 : strings.Split r2 '.' = f2 :: g2 :: rest2)
    (hf1 : isNumeral f1 M1) (hg1 : isNumeral g1 m1)
    (hf2 : isNumeral f2 M2) (hg2 : isNumeral g2 m2)
    (hM1 : M1 < 2 ^ 16) (hm1 : m1 < 2 ^ 16) (hM2 : M2 < 2 ^ 16) (hm2 : m2 < 2 ^ 16) :
    (getKernelVersion (unameOk r1)).2 = M1 * 65536 + m1 ∧
      (getKernelVersion (unameOk r1)).2 < 2 ^ 32 ∧
      (lexLt M1 m1 M2 m2 →
        (getKernelVersion (unameOk r1)).2 < (getKernelVersion (unameOk r2)).2) := by
  have hr1 : isRelease r1 M1 m1 :=
    ⟨f1, g1, rest1, hs1, strconv.ParseUint_of_isNumeral hf1 (by omega),
      strconv.ParseUint_of_isNumeral hg1 (by omega)⟩
  have hr2 : isRelease r2 M2 m2 :=
    ⟨f2, g2, rest2, hs2, strconv.ParseUint_of_isNumeral hf2 (by omega),
      strconv.ParseUint_of_isNumeral hg2 (by omega)⟩
  rw [getKernelVersion_unameOk, getKernelVersion_unameOk,
    versionOfRelease_of_isRelease hr1, versionOfRelease_of_isRelease hr2,
    pack16 _ _ hM1 hm1, pack16 _ _ hM2 hm2]
  refine ⟨rfl, by omega, ?_⟩
  simp only [lexLt]
  omega

/-- C15 at the releases `6.13.0` and `6.15.2`. -/
theorem C15_packing_16_witness :
    (getKernelVersion (unameOk "6.13.0")).2 = 6 * 65536 + 13 ∧
      (getKernelVersion (unameOk "6.13.0")).2 < 2 ^ 32 ∧
      (lexLt 6 13 6 15 →
        (getKernelVersion (unameOk "6.13.0")).2 < (getKernelVersion (unameOk "6.15.2")).2) :=
  C15_packing_16 "6.13.0" "6.15.2" "6" "13" "6" "15" ["0"] ["2"] 6 13 6 15
    (by decide) (by decide) (by decide) (by decide) (by decide) (by decide)
    (by decide) (by decide) (by decide) (by decide)


/-- C16: with `reqMask v` the bitwise OR of the keys of the table entries that are
required and have `Since` at most `v`, for every extension bitmask `b` and version
`v` the check loop writes the success line if and only if
`b AND reqMask v = reqMask v`; hence setting additional bits in `b` never turns a
pass into a failure. -/
theorem C16_mask_characterisation (b v : Nat) :
    (checkExtensions extensions b v = allSupported ↔
        b &&& reqMask extensions v = reqMask extensions v) ∧
      ∀ extra : Nat, checkExtensions extensions b v = allSupported →
        checkExtensions extensions (b ||| extra) v = allSupported := by
  have hk : ∀ d ∈ extensions, ∃ i, d.Key = 2 ^ i := fun d hd =>
    let ⟨i, _, hi⟩ := extensions_key_pow d hd
    ⟨i, hi⟩
  refine ⟨pass_iff_mask extensions hk b v, ?_⟩
  intro extra h
  rw [pass_iff_mask extensions hk, and_eq_right_iff] at h ⊢
  intro i hi
  rw [Nat.testBit_or, h i hi]
  rfl

/-- C16 at version 6.15: the mask of binding requirements, a bitmask that contains
it, and the same bitmask with bit 63 added. -/
theorem C16_mask_characterisation_witness :
    reqMask extensions 0x0006000f = 0x038fbff9b40b007f ∧
      checkExtensions extensions 0x038fbff9b40b007f 0x0006000f = allSupported ∧
      checkExtensions extensions (0x038fbff9b40b007f ||| 2 ^ 63) 0x0006000f = allSupported :=
  ⟨by decide,
    (C16_mask_characterisation 0x038fbff9b40b007f 0x0006000f).1.mpr (by decide),
    (C16_mask_characterisation 0x038fbff9b40b007f 0x0006000f).2 (2 ^ 63) (by decide)⟩

/-- C17: for every version and any two extension bitmasks that agree on the bit of
every table entry that is required, the check loop produces the same run: the
same exit code and the same line, including the same reported label. -/
theorem C17_optional_bits_irrelevant (v b1 b2 : Nat)
    (h : ∀ d ∈ extensions, d.Required = true → b1 &&& d.Key = b2 &&& d.Key) :
    checkExtensions extensions b1 v = checkExtensions extensions b2 v := by
  apply checkExtensions_congr
  intro d hd
  cases hr : d.Required with
  | false => simp [isMissing, hr]
  | true => simp [isMissing, hr, h d hd hr]

/-- C17 at version 6.15 with two bitmasks that both lack Zicntr and differ on the
optional Zbc bit and on bit 63. -/
theorem C17_optional_bits_irrelevant_witness :
    (2 ^ 63 - 1 - RISCV_HWPROBE_EXT_ZICNTR ≠
        2 ^ 64 - 1 - RISCV_HWPROBE_EXT_ZICNTR - RISCV_HWPROBE_EXT_ZBC) ∧
      checkExtensions extensions (2 ^ 63 - 1 - RISCV_HWPROBE_EXT_ZICNTR) 0x0006000f =
        checkExtensions extensions
          (2 ^ 64 - 1 - RISCV_HWPROBE_EXT_ZICNTR - RISCV_HWPROBE_EXT_ZBC) 0x0006000f ∧
      checkExtensions extensions (2 ^ 63 - 1 - RISCV_HWPROBE_EXT_ZICNTR) 0x0006000f =
        notSupported "Zicntr" :=
  ⟨by decide,
    C17_optional_bits_irrelevant 0x0006000f (2 ^ 63 - 1 - RISCV_HWPROBE_EXT_ZICNTR)
      (2 ^ 64 - 1 - RISCV_HWPROBE_EXT_ZICNTR - RISCV_HWPROBE_EXT_ZBC) (by decide),
    by decide⟩

/-- C18: for every extension bitmask and all versions `v1 ≤ v2`, if the check loop
passes at `v2` it passes at `v1`; every requirement that binds at `v1` binds at
`v2`; and for every version from `0x00060013` (6.19) on, the run of the check loop
is the run at `0x00060013`. -/
theorem C18_older_kernel_not_stricter (b v1 v2 : Nat) (h : v1 ≤ v2) :
    (checkExtensions extensions b v2 = allSupported →
        checkExtensions extensions b v1 = allSupported) ∧
      (∀ d : extDesc, d.Required = true ∧ d.Since ≤ v1 → d.Required = true ∧ d.Since ≤ v2) ∧
      ∀ v, 0x00060013 ≤ v →
        checkExtensions extensions b v = checkExtensions extensions b 0x00060013 := by
  refine ⟨?_, fun d hd => ⟨hd.1, Nat.le_trans hd.2 h⟩, ?_⟩
  · intro hp
    rw [checkExtensions_eq_allSupported, checkExtensions_exitCode_zero] at hp ⊢
    intro d hd
    by_contra hm
    have hm1 : isMissing b v1 d = true := by simpa using hm
    obtain ⟨hr, hs, hb⟩ := (isMissing_iff b v1 d).mp hm1
    have := (isMissing_iff b v2 d).mpr ⟨hr, Nat.le_trans hs h, hb⟩
    rw [hp d hd] at this
    exact Bool.noConfusion this
  · intro v hv
    apply checkExtensions_congr
    intro d hd
    have hs := extensions_since_le d hd
    have h1 : d.Since ≤ v := Nat.le_trans hs hv
    simp [isMissing, hs, h1]

/-- C18 at the versions of 6.10 and 6.15: the full bitmask passes at 6.15 and
therefore at 6.10, while a bitmask missing only Zicntr passes at 6.10 and fails at
6.15. -/
theorem C18_older_kernel_not_stricter_witness :
    checkExtensions extensions (2 ^ 63 - 1) 0x0006000f = allSupported ∧
      checkExtensions extensions (2 ^ 63 - 1) 0x0006000a = allSupported ∧
      checkExtensions extensions (2 ^ 63 - 1 - RISCV_HWPROBE_EXT_ZICNTR) 0x0006000a =
        allSupported ∧
      checkExtensions extensions (2 ^ 63 - 1 - RISCV_HWPROBE_EXT_ZICNTR) 0x0006000f =
        notSupported "Zicntr" :=
  ⟨by decide,
    (C18_older_kernel_not_stricter (2 ^ 63 - 1) 0x0006000a 0x0006000f (by decide)).1
      (by decide),
    by decide, by decide⟩

/-- C19: the labels of the `extensions` table are pairwise distinct, so a report
line identifies exactly one table entry and with it exactly one bit position of
the extension bitmask; the label `Zfe64d` identifies bit 41, the key
`RISCV_HWPROBE_EXT_ZVE64D`. -/
theorem C19_labels_distinct :
    (extensions.map extDesc.Text).Nodup ∧
      (∀ d ∈ extensions, ∀ e ∈ extensions,
        d.Text ++ " NOT supported\n" = e.Text ++ " NOT supported\n" →
          d = e ∧ d.Key = e.Key) ∧
      (∀ d ∈ extensions, ∃ i, i < 63 ∧ d.Key = 2 ^ i) ∧
      (∃ d ∈ extensions, d.Text = "Zfe64d") ∧
      ∀ d ∈ extensions, d.Text = "Zfe64d" →
        d.Key = RISCV_HWPROBE_EXT_ZVE64D ∧ d.Key = 2 ^ 41 := by
  refine ⟨extensions_text_nodup, ?_, extensions_key_pow, by decide, by decide⟩
  intro d hd e he heq
  have := entry_eq_of_line_eq he hd heq
  exact ⟨this, by rw [this]⟩

end Hwprobe
